import Mathlib

/-!
Verification of the control-plane core of a multi-tenant social-media
posting orchestrator: the per-agent daily budget ledger (two-phase
reserve/commit), the engagement rate limiter, the stop/resume guard with
auto-stop, the daily-routine gate ordering, the posting worker's per-post
state machine, feature-toggle resolution and tweet-URL extraction.

The embedding is a shallow translation of the Python sources
(`packages/core/core/controls.py`, `apps/worker/posting_jobs.py`,
`apps/worker/daily_routine.py`, `apps/worker/feature_toggles.py`).
`Decimal` money amounts become `ℚ`; database tables become lists of rows;
an exception becomes an explicit failure branch that leaves state
unchanged; `datetime` values become integer UTC timestamps with
`dateOf t = t / 86400` as the calendar-date projection.

The relational schema module (`core/models.py`) is imported by the code
but is not part of the source tree; row structures below that come from
it (field sets of CostLog, Agent, Post, PostMetrics, AuditLog,
EngagementAction, DailyPDCA and the `stopped` agent status) are modelled
from the data-model section of the specification, which lists exactly the
fields the present code reads and writes.  Dynamic JSON blobs are
projected to the typed fields the verified code touches.  SHA-256
(`build_post_content_hash`) and the injected poster adapter are kept
abstract as function parameters.
-/

namespace XAout

/-- Calendar date of an integer UTC timestamp (seconds), as used by
`current.date()` in the worker. -/
def dateOf (t : ℤ) : ℤ := t / 86400

/-- Modelled from the spec: CostLog row of `core/models.py` (not in the
source tree); fields as in §3 of the specification and as read/written by
`BudgetLedger` in `controls.py`. Usage-reconciler columns are omitted. -/
structure CostLog where
  agent_id : ℕ
  date : ℤ
  x_api_cost : ℚ
  x_api_cost_estimate : ℚ
  llm_cost : ℚ
  image_gen_cost : ℚ
  total : ℚ
deriving DecidableEq, Repr

/-- Sum of a money column over the CostLog rows for one (agent, date):
the `select(func.sum(...)).where(...)` aggregate in `BudgetLedger._spent`. -/
def sumCost (db : List CostLog) (a : ℕ) (d : ℤ) (f : CostLog → ℚ) : ℚ :=
  ((db.filter (fun r => r.agent_id == a && r.date == d)).map f).sum

def spentX (db : List CostLog) (a : ℕ) (d : ℤ) : ℚ := sumCost db a d (·.x_api_cost)

def spentXEstimate (db : List CostLog) (a : ℕ) (d : ℤ) : ℚ :=
  sumCost db a d (·.x_api_cost_estimate)

def spentLlm (db : List CostLog) (a : ℕ) (d : ℤ) : ℚ := sumCost db a d (·.llm_cost)

def spentTotal (db : List CostLog) (a : ℕ) (d : ℤ) : ℚ := sumCost db a d (·.total)

/-- In-memory state of `controls.BudgetLedger`: three limits fixed at
construction from the agent's integer budget fields, and the two
not-yet-committed reservations. -/
structure BudgetLedger where
  agent_id : ℕ
  target_date : ℤ
  daily_limit : ℚ
  x_limit : ℚ
  llm_limit : ℚ
  x_reserved : ℚ
  llm_reserved : ℚ
deriving DecidableEq, Repr

/-- `BudgetLedger.__init__`: fresh ledger with zero reservations. -/
def mkBudgetLedger (agent_id : ℕ) (target_date : ℤ)
    (daily_budget split_x split_llm : ℤ) : BudgetLedger :=
  { agent_id := agent_id
    target_date := target_date
    daily_limit := (daily_budget : ℚ)
    x_limit := (split_x : ℚ)
    llm_limit := (split_llm : ℚ)
    x_reserved := 0
    llm_reserved := 0 }

/-- `BudgetLedger.reserve(x_cost, llm_cost)`.  The returned Bool is true
when the call returns normally and false when it raises
`BudgetExceededError`; in the raising case the ledger is returned
unchanged (the Python method raises before mutating the reservations). -/
def BudgetLedger.reserve (L : BudgetLedger) (db : List CostLog)
    (x_cost llm_cost : ℚ) : BudgetLedger × Bool :=
  let x_spent := spentX db L.agent_id L.target_date
  let llm_spent := spentLlm db L.agent_id L.target_date
  let total_spent := spentTotal db L.agent_id L.target_date
  let next_x := x_spent + L.x_reserved + x_cost
  let next_llm := llm_spent + L.llm_reserved + llm_cost
  let next_total := total_spent + L.x_reserved + L.llm_reserved + x_cost + llm_cost
  if next_x > L.x_limit ∨ next_llm > L.llm_limit ∨ next_total > L.daily_limit then
    (L, false)
  else
    ({ L with x_reserved := L.x_reserved + x_cost,
              llm_reserved := L.llm_reserved + llm_cost }, true)

/-- Replace the first element satisfying `p` by `f` of it (the row object
returned by `session.scalar(select(...))`, mutated in place). -/
def updateFirstBy {α : Type} (l : List α) (p : α → Bool) (f : α → α) : List α :=
  match l with
  | [] => []
  | x :: xs => if p x then f x :: xs else x :: updateFirstBy xs p f

/-- The in-place increment `commit` applies to the existing (agent, date)
CostLog row. -/
def commitUpd (L : BudgetLedger) (r : CostLog) : CostLog :=
  { r with x_api_cost := r.x_api_cost + L.x_reserved
           x_api_cost_estimate := r.x_api_cost_estimate + L.x_reserved
           llm_cost := r.llm_cost + L.llm_reserved
           total := r.total + (L.x_reserved + L.llm_reserved) }

/-- The fresh CostLog row `commit` inserts when none exists. -/
def commitNewRow (L : BudgetLedger) : CostLog :=
  { agent_id := L.agent_id
    date := L.target_date
    x_api_cost := L.x_reserved
    x_api_cost_estimate := L.x_reserved
    llm_cost := L.llm_reserved
    image_gen_cost := 0
    total := L.x_reserved + L.llm_reserved }

/-- `BudgetLedger.commit()`: no-op when both reservations are zero;
otherwise upsert the (agent, date) CostLog row — incrementing the first
matching row, or appending a fresh row — and reset the reservations. -/
def BudgetLedger.commit (L : BudgetLedger) (db : List CostLog) :
    List CostLog × BudgetLedger :=
  if L.x_reserved = 0 ∧ L.llm_reserved = 0 then (db, L)
  else
    let db' :=
      if (db.find? (fun r => r.agent_id == L.agent_id && r.date == L.target_date)).isSome then
        updateFirstBy db (fun r => r.agent_id == L.agent_id && r.date == L.target_date)
          (commitUpd L)
      else
        db ++ [commitNewRow L]
    (db', { L with x_reserved := 0, llm_reserved := 0 })

/-- Modelled from the spec: agent status enum of `core/models.py` (not in
the source tree); §3 lists status ∈ \x7bactive, paused, disabled, stopped\x7d. -/
inductive AgentStatus where
  | active
  | paused
  | disabled
  | stopped
deriving DecidableEq, Repr

/-- The `.value` string of an `AgentStatus`, used in skip reasons. -/
def agentStatusValue : AgentStatus → String
  | .active => "active"
  | .paused => "paused"
  | .disabled => "disabled"
  | .stopped => "stopped"

/-- A Python JSON scalar as stored in the `feature_toggles` mapping.
`pyObj` stands for any value `int()` rejects with TypeError (dict, list,
None and the like). -/
inductive PyVal where
  | pyInt (n : ℤ)
  | pyBool (b : Bool)
  | pyStr (s : String)
  | pyObj
deriving DecidableEq, Repr

/-- Digits-only string to integer, for Python `int(str)`. -/
def digitsToInt (cs : List Char) : Option ℤ :=
  if cs ≠ [] ∧ cs.all Char.isDigit then
    some (cs.foldl (fun acc c => acc * 10 + ((c.toNat : ℤ) - 48)) 0)
  else none

/-- Python `int(s)` on a string: strip surrounding whitespace, optional
sign, then a non-empty digit run; anything else raises ValueError. -/
def pyParseInt (s : String) : Option ℤ :=
  let cs := ((s.toList.dropWhile Char.isWhitespace).reverse.dropWhile Char.isWhitespace).reverse
  match cs with
  | '+' :: rest => digitsToInt rest
  | '-' :: rest => (digitsToInt rest).map (fun n => -n)
  | rest => digitsToInt rest

/-- Python `int(value)` over toggle values: ints pass through, bools map
to 0/1, numeric strings parse; everything else raises (None). -/
def pyIntOf : PyVal → Option ℤ
  | .pyInt n => some n
  | .pyBool b => some (if b then 1 else 0)
  | .pyStr s => pyParseInt s
  | .pyObj => none

/-- `dict.get` over the feature-toggle mapping. -/
def lookupToggle : List (String × PyVal) → String → Option PyVal
  | [], _ => none
  | (k, v) :: rest, key => if k == key then some v else lookupToggle rest key

/-- `posting_jobs._agent_toggle_int(agent, key, default)`: missing key
falls back to the default (then clamped like any value), an
`int()`-convertible value is clamped to `max(0, ·)`, and a conversion
error returns the default unclamped. -/
def agent_toggle_int (toggles : List (String × PyVal)) (key : String) (default : ℤ) : ℤ :=
  match lookupToggle toggles key with
  | none => max 0 default
  | some v =>
    match pyIntOf v with
    | some n => max 0 n
    | none => default

/-- The allowlist with (min, max) ranges from
`feature_toggles._ALLOWED_TOGGLE_RULES`. -/
def toggleRule (key : String) : Option (ℤ × ℤ) :=
  if key == "posts_per_day" then some (0, 20)
  else if key == "x_search_max" then some (0, 50)
  else if key == "web_search_max" then some (0, 50)
  else if key == "web_fetch_max" then some (0, 20)
  else if key == "posting_poll_seconds" then some (1, 86400)
  else if key == "reply_quote_daily_max" then some (0, 100)
  else none

/-- `feature_toggles.read_int_toggle(agent, key, default)`: allowlisted
key, bool refused, `int()` conversion, then range check; every failure
returns the default. -/
def read_int_toggle (toggles : List (String × PyVal)) (key : String) (default : ℤ) : ℤ :=
  match toggleRule key with
  | none => default
  | some (lo, hi) =>
    match lookupToggle toggles key with
    | none => default
    | some v =>
      match v with
      | .pyBool _ => default
      | _ =>
        match pyIntOf v with
        | none => default
        | some n => if n < lo then default else if n > hi then default else n

/-- Modelled from the spec: Agent row of `core/models.py` (not in the
source tree); §3 lists the status, toggle, budget and stop fields the
present code reads and writes. -/
structure Agent where
  id : ℕ
  account_id : ℕ
  status : AgentStatus
  feature_toggles : List (String × PyVal)
  daily_budget : ℤ
  budget_split_x : ℤ
  budget_split_llm : ℤ
  stop_reason : Option String
  stopped_at : Option ℤ
  stop_until : Option ℤ
deriving DecidableEq, Repr

/-- Modelled from the spec: AuditLog row of `core/models.py` (not in the
source tree); §3 lists agent_id, date, source, event_type, status,
reason and a payload blob (payload omitted here). Append-only. -/
structure AuditLog where
  agent_id : ℕ
  date : ℤ
  source : String
  event_type : String
  status : String
  reason : Option String
deriving DecidableEq, Repr

/-- Modelled from the spec: DailyPDCA row of `core/models.py` (not in the
source tree), with its JSON blobs projected to the typed fields the
verified code writes: the analysis status/reason pair, the
`auto_stop` annotation of the analytics summary, and the
`posting_errors` list (as exception type names). -/
structure DailyPDCA where
  agent_id : ℕ
  date : ℤ
  analysis_status : String
  analysis_reason : String
  auto_stop : Option (String × String)
  posting_errors : List String
deriving DecidableEq, Repr

/-- Modelled from the spec: EngagementAction row of `core/models.py` (not
in the source tree); only the columns the rate limiter filters on, with
`executed_date` standing for `func.date(executed_at)`. -/
structure EngagementAction where
  agent_id : ℕ
  executed_date : ℤ
deriving DecidableEq, Repr

/-- `RateLimiter._count_total`: EngagementAction rows for (agent, date). -/
def rateCountTotal (db : List EngagementAction) (a : ℕ) (d : ℤ) : ℕ :=
  (db.filter (fun e => e.agent_id == a && e.executed_date == d)).length

/-- `RateLimiter.is_limited(action_type, requested)`: true iff
`total_count + requested > daily_total_limit` (the per-type count is
computed and discarded by the source). -/
def rate_is_limited (db : List EngagementAction) (a : ℕ) (d : ℤ)
    (requested : ℕ) (daily_total_limit : ℤ) : Bool :=
  (rateCountTotal db a d : ℤ) + (requested : ℤ) > daily_total_limit

/-- `GuardManager.is_agent_runnable(agent, now)`: active, and any
stop_until already passed. -/
def is_agent_runnable (agent : Agent) (now : ℤ) : Bool :=
  if agent.status ≠ AgentStatus.active then false
  else
    match agent.stop_until with
    | none => true
    | some t => t ≤ now

/-- `GuardManager.maybe_auto_stop(agent_id, now, reason, source)`:
missing agent is a no-op; an agent already stopped with the same reason
is a no-op; otherwise stop the agent, append one `auto_stop`/`triggered`
audit row, and annotate today's DailyPDCA (first matching row) with the
(reason, source) pair when it exists. -/
def maybe_auto_stop (agents : List Agent) (audits : List AuditLog)
    (pdcas : List DailyPDCA) (agent_id : ℕ) (now : ℤ) (reason source : String) :
    List Agent × List AuditLog × List DailyPDCA :=
  match agents.find? (fun a => a.id == agent_id) with
  | none => (agents, audits, pdcas)
  | some agent =>
    if agent.status = AgentStatus.stopped ∧ agent.stop_reason = some reason then
      (agents, audits, pdcas)
    else
      let agents' := updateFirstBy agents (fun a => a.id == agent_id)
        (fun a => { a with status := AgentStatus.stopped
                           stop_reason := some reason
                           stopped_at := some now })
      let audits' := audits ++
        [{ agent_id := agent_id, date := dateOf now, source := source
           event_type := "auto_stop", status := "triggered", reason := some reason }]
      let pdcas' := updateFirstBy pdcas (fun p => p.agent_id == agent_id && p.date == dateOf now)
        (fun p => { p with auto_stop := some (reason, source) })
      (agents', audits', pdcas')

/-- Insert a skip-marker DailyPDCA row for (agent, date) only when none
exists yet (`if pdca is None: session.add(...)` in `run_daily_routine`). -/
def insertPdcaIfAbsent (pdcas : List DailyPDCA) (agent_id : ℕ) (d : ℤ)
    (status reason : String) : List DailyPDCA :=
  if (pdcas.find? (fun p => p.agent_id == agent_id && p.date == d)).isSome then pdcas
  else pdcas ++ [{ agent_id := agent_id, date := d, analysis_status := status
                   analysis_reason := reason, auto_stop := none, posting_errors := [] }]

/-- Outcome of the gate prefix of `run_daily_routine`. -/
inductive RoutineGateResult where
  | skipResult (reason : String)
  | proceedResult (ledger : BudgetLedger)
deriving DecidableEq, Repr

/-- The gate prefix of `run_daily_routine(agent_id, base_date)`, in
source order: (1) guard gate, recording an `execution_skip` audit; then a
fresh ledger for `target_date`; (2) the reply rate-limit gate with
requested = 1 against the fixed daily_total_limit 3, writing a
`rate_limited` skip PDCA when absent; (3) the pre-flight reservation of
x = 1.00, llm = 2.00, writing a `budget_exceeded` skip PDCA on
`BudgetExceededError`.  Returns the outcome together with the updated
PDCA and audit tables. -/
def dailyRoutineGates (agent : Agent) (now target_date : ℤ)
    (costs : List CostLog) (engagements : List EngagementAction)
    (pdcas : List DailyPDCA) (audits : List AuditLog) :
    RoutineGateResult × List DailyPDCA × List AuditLog :=
  if ¬ is_agent_runnable agent now then
    let reason :=
      if agent.status = AgentStatus.stopped then "agent_stopped"
      else "agent_status_" ++ agentStatusValue agent.status
    (.skipResult reason, pdcas,
      audits ++ [{ agent_id := agent.id, date := target_date, source := "daily_routine"
                   event_type := "execution_skip", status := "skipped", reason := some reason }])
  else
    let ledger := mkBudgetLedger agent.id target_date
      agent.daily_budget agent.budget_split_x agent.budget_split_llm
    if rate_is_limited engagements agent.id target_date 1 3 then
      (.skipResult "rate_limited",
        insertPdcaIfAbsent pdcas agent.id target_date "skipped" "rate_limited", audits)
    else
      match ledger.reserve costs 1 2 with
      | (ledger', true) => (.proceedResult ledger', pdcas, audits)
      | (_, false) =>
        (.skipResult "budget_exceeded",
          insertPdcaIfAbsent pdcas agent.id target_date "skipped" "budget_exceeded", audits)

/-- Case-insensitive literal match: consume `pat` from the front of `s`,
returning the remainder (one regex literal under `re.IGNORECASE`). -/
def stripCI : List Char → List Char → Option (List Char)
  | [], s => some s
  | _ :: _, [] => none
  | p :: ps, c :: cs => if p.toLower == c.toLower then stripCI ps cs else none

/-- The three characters excluded by the handle-segment class `[^/?#]`. -/
def isUrlSep (c : Char) : Bool := c == '/' || c == '?' || c == '#'

/-- The tail `(\d+)(?:[/?#]|$)` of the tweet-URL pattern: a maximal
non-empty digit run, then a separator or end of input; returns the
captured digits. -/
def matchIdDigits (s : List Char) : Option (List Char) :=
  let ds := s.takeWhile Char.isDigit
  if ds.isEmpty then none
  else
    match s.dropWhile Char.isDigit with
    | [] => some ds
    | c :: _ => if isUrlSep c then some ds else none

/-- The `/(\d+)(?:[/?#]|$)` suffix after the `status` literal. -/
def matchSlashId (s : List Char) : Option (List Char) :=
  match s with
  | '/' :: rest => matchIdDigits rest
  | _ => none

/-- The alternation `(?:(?:[^/?#]+/)?status|i/web/status)` followed by
the id suffix, in the regex engine's preference order.  A greedy
`[^/?#]+` immediately followed by a literal `/` can only match the
maximal separator-free run, so no further backtracking arises. -/
def matchStatusPath (s : List Char) : Option (List Char) :=
  let withHandle :=
    let h := s.takeWhile (fun c => !(isUrlSep c))
    if h.isEmpty then none
    else
      match s.dropWhile (fun c => !(isUrlSep c)) with
      | '/' :: rest => (stripCI "status".toList rest).bind matchSlashId
      | _ => none
  (withHandle.orElse fun _ => (stripCI "status".toList s).bind matchSlashId).orElse
    fun _ => (stripCI "i/web/status".toList s).bind matchSlashId

/-- The host part `(?:x\.com|twitter\.com)/` of the pattern. -/
def matchHost (s : List Char) : Option (List Char) :=
  ((stripCI "x.com/".toList s).bind matchStatusPath).orElse
    fun _ => (stripCI "twitter.com/".toList s).bind matchStatusPath

/-- The optional `(?:www\.)?` prefix. -/
def matchWww (s : List Char) : Option (List Char) :=
  ((stripCI "www.".toList s).bind matchHost).orElse fun _ => matchHost s

/-- The optional scheme `(?:https?://)?`, alternatives in the regex
engine's preference order. -/
def matchScheme (s : List Char) : Option (List Char) :=
  (((stripCI "https://".toList s).bind matchWww).orElse
    fun _ => (stripCI "http://".toList s).bind matchWww).orElse
    fun _ => matchWww s

/-- `re.search` over the whole pattern: try every start position left to
right and return the captured digits of the leftmost match. -/
def searchTweetId : List Char → Option (List Char)
  | [] => none
  | c :: rest => (matchScheme (c :: rest)).orElse fun _ => searchTweetId rest

/-- `posting_jobs.extract_tweet_id(url)`: the captured numeric id of the
leftmost occurrence of the status-URL pattern, or the empty string. -/
def extract_tweet_id (url : String) : String :=
  match searchTweetId url.toList with
  | some ds => String.mk ds
  | none => ""

/-- The two metrics collection kinds (`MetricsCollectionType`). -/
inductive MetricsCollectionType where
  | snapshot
  | confirmed
deriving DecidableEq, Repr

/-- Modelled from the spec: PostMetrics row of `core/models.py` (not in
the source tree); §3 lists post_id, collection_type, collected_at and the
counter columns written by `_save_confirmed_metrics`. -/
structure PostMetrics where
  post_id : ℕ
  collection_type : MetricsCollectionType
  collected_at : ℤ
  impressions : ℤ
  likes : ℤ
  replies : ℤ
  retweets : ℤ
  clicks : ℤ
  engagements : ℤ
deriving DecidableEq, Repr

/-- The per-post metrics returned by the platform adapter
(`core.x_client.ExternalPostMetrics`, counters only). -/
structure ExternalPostMetrics where
  impressions : ℤ
  likes : ℤ
  replies : ℤ
  retweets : ℤ
  clicks : ℤ
deriving DecidableEq, Repr

/-- The existence check of `_save_confirmed_metrics`: is there already a
confirmed PostMetrics row for this post? -/
def hasConfirmed (rows : List PostMetrics) (pid : ℕ) : Bool :=
  rows.any (fun r => r.post_id == pid && r.collection_type == MetricsCollectionType.confirmed)

/-- `daily_routine._save_confirmed_metrics(session, post, metrics,
collected_at)`: insert a confirmed row iff none exists for the post;
the Bool reports whether a row was created. -/
def save_confirmed_metrics (rows : List PostMetrics) (pid : ℕ)
    (m : ExternalPostMetrics) (collected_at : ℤ) : List PostMetrics × Bool :=
  if hasConfirmed rows pid then (rows, false)
  else
    (rows ++ [{ post_id := pid
                collection_type := MetricsCollectionType.confirmed
                collected_at := collected_at
                impressions := m.impressions
                likes := m.likes
                replies := m.replies
                retweets := m.retweets
                clicks := m.clicks
                engagements := m.likes + m.replies + m.retweets + m.clicks }], true)

/-- The metrics-ingest loop of `run_daily_routine` step 4: the upserted
post rows are keyed by (agent, external_id), so a re-run presents the
same post ids; each post's metrics are passed through
`_save_confirmed_metrics`. -/
def ingestConfirmedMetrics (rows : List PostMetrics)
    (posts : List (ℕ × ExternalPostMetrics)) (collected_at : ℤ) : List PostMetrics :=
  posts.foldl (fun acc pm => (save_confirmed_metrics acc pm.1 pm.2 collected_at).1) rows

/-- An operation on one BudgetLedger instance: a `reserve` call with its
two cost arguments, or a `commit`. -/
inductive LedgerOp where
  | reserveOp (x_cost llm_cost : ℚ)
  | commitOp
deriving DecidableEq, Repr

/-- One ledger operation applied to the (CostLog table, ledger) pair; a
failed reserve leaves both unchanged. -/
def ledgerStep (s : List CostLog × BudgetLedger) (op : LedgerOp) :
    List CostLog × BudgetLedger :=
  match op with
  | .reserveOp x l => (s.1, (s.2.reserve s.1 x l).1)
  | .commitOp => s.2.commit s.1

/-- A sequence of reserve/commit operations on one ledger. -/
def runLedgerOps (s : List CostLog × BudgetLedger) (ops : List LedgerOp) :
    List CostLog × BudgetLedger :=
  ops.foldl ledgerStep s

/-- A reserve with non-negative costs (or a commit). -/
def ledgerOpNonneg : LedgerOp → Prop
  | .reserveOp x l => 0 ≤ x ∧ 0 ≤ l
  | .commitOp => True

/-- Modelled from the spec: post type enum of `core/models.py` (not in
the source tree); §3 lists type ∈ \x7btweet, thread, reply, quote_rt,
poll\x7d. -/
inductive PostType where
  | tweet
  | thread
  | reply
  | quote_rt
  | poll
deriving DecidableEq, Repr

/-- Modelled from the spec: Post row of `core/models.py` (not in the
source tree); §3 lists the columns the posting worker reads and writes. -/
structure Post where
  id : ℕ
  agent_id : ℕ
  external_id : Option String
  content : String
  type : PostType
  target_post_url : Option String
  thread_parts : Option (List String)
  content_hash : Option String
  content_bucket_date : Option ℤ
  scheduled_at : Option ℤ
  posted_at : Option ℤ
deriving DecidableEq, Repr

/-- Python truthiness fallback `opt or d` for an optional string (both
`None` and the empty string fall back). -/
def optStrOr (o : Option String) (d : String) : String :=
  match o with
  | some s => if s.isEmpty then d else s
  | none => d

/-- The due-post condition of `_due_posts_claim_query`:
`scheduled_at IS NOT NULL AND scheduled_at <= current AND posted_at IS NULL`. -/
def isDuePost (post : Post) (current : ℤ) : Bool :=
  match post.scheduled_at with
  | some t => decide (t ≤ current) && post.posted_at.isNone
  | none => false

/-- Outcome of `_post_with_type`: a returned external id, an
`InvalidTargetUrlError`, or any other exception by type name. -/
inductive PostOutcome where
  | okOut (external_id : String)
  | invalidUrlOut
  | errorOut (error_type : String)
deriving DecidableEq, Repr

/-- `posting_jobs._post_with_type(poster, post)`: dispatch on the post
type; reply/quote first require a truthy `target_post_url` (else
ValueError) whose tweet id extracts non-empty (else
InvalidTargetUrlError); poll is unsupported (ValueError).  The poster
adapter is abstracted as a function from the post to either an external
id or a raised exception's type name; the Bool reports whether a poster
method was invoked. -/
def post_with_type (posterFn : Post → Except String String) (post : Post) :
    PostOutcome × Bool :=
  match post.type with
  | .tweet | .thread =>
    (match posterFn post with
     | .ok e => (.okOut e, true)
     | .error t => (.errorOut t, true))
  | .reply | .quote_rt =>
    match post.target_post_url with
    | none => (.errorOut "ValueError", false)
    | some u =>
      if u.isEmpty then (.errorOut "ValueError", false)
      else if extract_tweet_id u == "" then (.invalidUrlOut, false)
      else
        match posterFn post with
        | .ok e => (.okOut e, true)
        | .error t => (.errorOut t, true)
  | .poll => (.errorOut "ValueError", false)

/-- The environment of one `run_posting_jobs` invocation with an injected
poster (so the `USE_REAL_X` OAuth pre-pass is skipped): the abstract
content hash (`build_post_content_hash`, a SHA-256 kept opaque), the
poster adapter, and the `base_datetime`. -/
structure PostingEnv where
  hashFn : String → Option (List String) → String
  posterFn : Post → Except String String
  now : ℤ

/-- The database tables and in-loop counters touched by the posting
worker. `engagement_attempts` is the worker's in-loop attempt counter;
`poster_calls` counts poster-adapter invocations. -/
structure PostingState where
  agents : List Agent
  posts : List Post
  cost_logs : List CostLog
  audits : List AuditLog
  pdcas : List DailyPDCA
  engagements : List EngagementAction
  engagement_attempts : ℕ
  poster_calls : ℕ
deriving Repr

/-- One entry of the list returned by `run_posting_jobs`. -/
inductive PostingResult where
  | postedR (post_id : ℕ) (external_id : String)
  | skippedR (post_id : ℕ) (reason : String)
  | failedR (post_id : ℕ) (error_type : String)
deriving DecidableEq, Repr

/-- `posting_jobs._append_pdca_error`: append the exception type to the
posting_errors of the (agent, date) PDCA row, creating a
`posting_failed` row when absent. -/
def appendPdcaError (pdcas : List DailyPDCA) (agent_id : ℕ) (d : ℤ)
    (err : String) : List DailyPDCA :=
  if (pdcas.find? (fun p => p.agent_id == agent_id && p.date == d)).isSome then
    updateFirstBy pdcas (fun p => p.agent_id == agent_id && p.date == d)
      (fun p => { p with posting_errors := p.posting_errors ++ [err] })
  else
    pdcas ++ [{ agent_id := agent_id, date := d, analysis_status := "posting_failed"
                analysis_reason := "", auto_stop := none, posting_errors := [err] }]

/-- The content-hash backfill of the per-post loop: `post.content_hash
or build_post_content_hash(...)` and `post.content_bucket_date or
current.date()`, written back to the post. -/
def backfillPost (env : PostingEnv) (post : Post) : Post :=
  { post with
    content_hash := some (optStrOr post.content_hash
      (env.hashFn post.content post.thread_parts))
    content_bucket_date := some (post.content_bucket_date.getD (dateOf env.now)) }

/-- `posting_jobs._recent_consecutive_failures`: the last (up to) three
audit rows for (agent, source, event_type); 3 when there are three and
all are `failed`, else 0. -/
def recentConsecutiveFailures (audits : List AuditLog) (agent_id : ℕ)
    (source event_type : String) : ℕ :=
  let logs := ((audits.filter (fun a =>
    a.agent_id == agent_id && a.source == source && a.event_type == event_type)).reverse.take 3)
  if logs.length < 3 then 0
  else if logs.all (fun a => a.status == "failed") then logs.length
  else 0

/-- The `except Exception` handler of the per-post loop: PDCA error
entry, a `failed` audit row, and the three-consecutive-failures auto-stop
check. -/
def postingGenericFailure (env : PostingEnv) (st : PostingState) (post : Post)
    (error_type : String) : PostingState × Option PostingResult :=
  let st1 := { st with
    pdcas := appendPdcaError st.pdcas post.agent_id (dateOf env.now) error_type
    audits := st.audits ++
      [{ agent_id := post.agent_id, date := dateOf env.now, source := "posting_jobs"
         event_type := "posting", status := "failed", reason := some error_type }] }
  let st2 :=
    if recentConsecutiveFailures st1.audits post.agent_id "posting_jobs" "posting" ≥ 3 then
      let r := maybe_auto_stop st1.agents st1.audits st1.pdcas post.agent_id env.now
        "auto_anomaly_posting_failures" "posting_jobs"
      { st1 with agents := r.1, audits := r.2.1, pdcas := r.2.2 }
    else st1
  (st2, some (.failedR post.id error_type))

/-- The body of the per-post loop of `run_posting_jobs` for one claimed
post, in source order: skip already-posted rows; agent lookup (a missing
agent raises RuntimeError into the generic handler); guard gate;
engagement rate gate for reply/quote with the in-loop attempt counter and
the `reply_quote_daily_max` toggle; content-hash backfill; posted
duplicate-content check; per-post budget reservation of x = 1.00 on a
fresh ledger; `_post_with_type`; then either mark posted + ledger commit
+ success audit, or the `InvalidTargetUrlError` /
`BudgetExceededError` / generic handlers. -/
def processPost (env : PostingEnv) (st : PostingState) (post : Post) :
    PostingState × Option PostingResult :=
  if post.posted_at.isSome then (st, none)
  else
    match st.agents.find? (fun a => a.id == post.agent_id) with
    | none => postingGenericFailure env st post "RuntimeError"
    | some agent =>
      if !(is_agent_runnable agent env.now) then
        let reason :=
          if agent.status = AgentStatus.stopped then "agent_stopped"
          else "agent_status_" ++ agentStatusValue agent.status
        ({ st with audits := st.audits ++
            [{ agent_id := agent.id, date := dateOf env.now, source := "posting_jobs"
               event_type := "posting", status := "skipped", reason := some reason }] },
          some (.skippedR post.id reason))
      else
        let isEngagement := post.type == PostType.reply || post.type == PostType.quote_rt
        if isEngagement &&
            rate_is_limited st.engagements post.agent_id (dateOf env.now)
              (st.engagement_attempts + 1)
              (agent_toggle_int agent.feature_toggles "reply_quote_daily_max" 3) then
          ({ st with
              pdcas := appendPdcaError st.pdcas post.agent_id (dateOf env.now) "rate_limited"
              audits := st.audits ++
                [{ agent_id := agent.id, date := dateOf env.now, source := "posting_jobs"
                   event_type := "posting", status := "skipped", reason := some "rate_limited" }] },
            some (.skippedR post.id "rate_limited"))
        else
          let st1 :=
            if isEngagement then
              { st with engagement_attempts := st.engagement_attempts + 1 }
            else st
          let post1 := backfillPost env post
          let st2 := { st1 with
            posts := updateFirstBy st1.posts (fun q => q.id == post.id) (fun _ => post1) }
          match st2.posts.find? (fun q =>
              q.agent_id == post.agent_id && !(q.id == post.id) &&
              q.content_hash == post1.content_hash &&
              q.content_bucket_date == post1.content_bucket_date &&
              q.posted_at.isSome) with
          | some _ =>
            ({ st2 with audits := st2.audits ++
                [{ agent_id := agent.id, date := dateOf env.now, source := "posting_jobs"
                   event_type := "posting", status := "skipped"
                   reason := some "duplicate_content" }] },
              some (.skippedR post.id "duplicate_content"))
          | none =>
            let ledger := mkBudgetLedger post.agent_id (dateOf env.now)
              agent.daily_budget agent.budget_split_x agent.budget_split_llm
            match ledger.reserve st2.cost_logs 1 0 with
            | (_, false) =>
              ({ st2 with
                  pdcas := appendPdcaError st2.pdcas post.agent_id (dateOf env.now)
                    "BudgetExceededError"
                  audits := st2.audits ++
                    [{ agent_id := post.agent_id, date := dateOf env.now
                       source := "posting_jobs", event_type := "posting", status := "failed"
                       reason := some "budget_exceeded" }] },
                some (.failedR post.id "BudgetExceededError"))
            | (ledger1, true) =>
              let pw := post_with_type env.posterFn post1
              let st3 := { st2 with
                poster_calls := st2.poster_calls + (if pw.2 then 1 else 0) }
              match pw.1 with
              | .okOut ext =>
                let post2 := { post1 with external_id := some ext, posted_at := some env.now }
                ({ st3 with
                    posts := updateFirstBy st3.posts (fun q => q.id == post.id) (fun _ => post2)
                    cost_logs := (ledger1.commit st3.cost_logs).1
                    audits := st3.audits ++
                      [{ agent_id := agent.id, date := dateOf env.now, source := "posting_jobs"
                         event_type := "posting", status := "success", reason := none }] },
                  some (.postedR post.id ext))
              | .invalidUrlOut =>
                ({ st3 with
                    pdcas := appendPdcaError st3.pdcas post.agent_id (dateOf env.now)
                      "invalid_target_url"
                    audits := st3.audits ++
                      [{ agent_id := post.agent_id, date := dateOf env.now
                         source := "posting_jobs", event_type := "posting"
                         status := "skipped", reason := some "invalid_target_url" }] },
                  some (.skippedR post.id "invalid_target_url"))
              | .errorOut etype => postingGenericFailure env st3 post etype

/-- The per-post loop of `run_posting_jobs` over the claimed batch,
collecting the returned entries. -/
def runPostingJobs (env : PostingEnv) (st : PostingState) (due : List Post) :
    PostingState × List PostingResult :=
  due.foldl (fun acc post =>
    let r := processPost env acc.1 post
    (r.1, acc.2 ++ (match r.2 with | some e => [e] | none => []))) (st, [])

/-- The number of `failed` audit rows. -/
def countFailedAudits (audits : List AuditLog) : ℕ :=
  (audits.filter (fun a => a.status == "failed")).length

/-! ## Helper lemmas -/

theorem sumCost_append_one (db : List CostLog) (r : CostLog) (a : ℕ) (d : ℤ)
    (f : CostLog → ℚ) :
    sumCost (db ++ [r]) a d f
      = sumCost db a d f + (if r.agent_id == a && r.date == d then f r else 0) := by
  by_cases h : (r.agent_id == a && r.date == d) = true
  · simp [sumCost, List.filter_append, h]
  · simp [sumCost, List.filter_append, h]

theorem sumCost_updateFirstBy (db : List CostLog) (a : ℕ) (d : ℤ)
    (g : CostLog → CostLog) (f : CostLog → ℚ) (δ : ℚ) (a' : ℕ) (d' : ℤ)
    (hg : ∀ r : CostLog, f (g r) = f r + δ)
    (hkey : ∀ r : CostLog, (g r).agent_id = r.agent_id ∧ (g r).date = r.date)
    (hfound : (db.find? (fun r => r.agent_id == a && r.date == d)).isSome) :
    sumCost (updateFirstBy db (fun r => r.agent_id == a && r.date == d) g) a' d' f
      = sumCost db a' d' f + (if a == a' && d == d' then δ else 0) := by
  induction db with
  | nil => simp at hfound
  | cons r rest ih =>
    by_cases hr : (r.agent_id == a && r.date == d) = true
    · have hga : (g r).agent_id = r.agent_id := (hkey r).1
      have hgd : (g r).date = r.date := (hkey r).2
      have hra : r.agent_id = a := by
        have := (Bool.and_eq_true _ _).mp hr
        exact eq_of_beq this.1
      have hrd : r.date = d := by
        have := (Bool.and_eq_true _ _).mp hr
        exact eq_of_beq this.2
      by_cases hmatch : (r.agent_id == a' && r.date == d') = true
      · have hm2 : ((g r).agent_id == a' && (g r).date == d') = true := by
          rw [hga, hgd]; exact hmatch
        have haa : a = a' := by
          have := (Bool.and_eq_true _ _).mp hmatch
          have h1 : r.agent_id = a' := eq_of_beq this.1
          omega
        have hdd : d = d' := by
          have := (Bool.and_eq_true _ _).mp hmatch
          have h2 : r.date = d' := eq_of_beq this.2
          rw [← hrd, h2]
        simp [updateFirstBy, hr, sumCost, hmatch, hm2, hg r, haa, hdd]
        ring
      · have hm2 : ((g r).agent_id == a' && (g r).date == d') = false := by
          rw [hga, hgd]; exact Bool.eq_false_iff.mpr hmatch
        have : ¬(a == a' && d == d') = true := by
          intro hc
          apply hmatch
          have := (Bool.and_eq_true _ _).mp hc
          have h1 : a = a' := eq_of_beq this.1
          have h2 : d = d' := eq_of_beq this.2
          rw [hra, hrd, h1, h2]
          simp
        simp [updateFirstBy, hr, sumCost, hm2, Bool.eq_false_iff.mpr hmatch, this]
    · have hrest : (rest.find? (fun r => r.agent_id == a && r.date == d)).isSome := by
        simpa [List.find?, hr] using hfound
      have ihr := ih hrest
      by_cases hmatch : (r.agent_id == a' && r.date == d') = true
      · simp only [updateFirstBy, hr, if_neg, Bool.false_eq_true, not_false_iff, ite_false]
        simp only [sumCost, List.filter_cons, hmatch, if_true, List.map_cons, List.sum_cons]
        simp only [sumCost] at ihr
        rw [ihr]
        ring
      · simp only [updateFirstBy, hr, Bool.false_eq_true, not_false_iff, ite_false]
        simp only [sumCost, List.filter_cons, hmatch, if_false, Bool.false_eq_true]
        simp only [sumCost] at ihr
        rw [ihr]

theorem sumCost_commit (L : BudgetLedger) (db : List CostLog) (a' : ℕ) (d' : ℤ)
    (f : CostLog → ℚ) (δ : ℚ)
    (hupd : ∀ r : CostLog, f (commitUpd L r) = f r + δ)
    (hnew : f (commitNewRow L) = δ)
    (hzero : L.x_reserved = 0 → L.llm_reserved = 0 → δ = 0) :
    sumCost (L.commit db).1 a' d' f
      = sumCost db a' d' f
        + (if L.agent_id == a' && L.target_date == d' then δ else 0) := by
  unfold BudgetLedger.commit
  by_cases h0 : L.x_reserved = 0 ∧ L.llm_reserved = 0
  · have : δ = 0 := hzero h0.1 h0.2
    simp [h0, this]
  · by_cases hfound :
      (db.find? (fun r => r.agent_id == L.agent_id && r.date == L.target_date)).isSome
    · simp only [h0, if_false, hfound, if_true, ite_false]
      exact sumCost_updateFirstBy db L.agent_id L.target_date (commitUpd L) f δ a' d'
        hupd (fun r => ⟨rfl, rfl⟩) hfound
    · simp only [h0, if_false, hfound, if_true, ite_false, Bool.false_eq_true]
      rw [sumCost_append_one]
      have : (commitNewRow L).agent_id = L.agent_id ∧ (commitNewRow L).date = L.target_date :=
        ⟨rfl, rfl⟩
      by_cases hm : (L.agent_id == a' && L.target_date == d') = true
      · rw [show ((commitNewRow L).agent_id == a' && (commitNewRow L).date == d')
            = (L.agent_id == a' && L.target_date == d') from rfl]
        simp [hm, hnew]
      · rw [show ((commitNewRow L).agent_id == a' && (commitNewRow L).date == d')
            = (L.agent_id == a' && L.target_date == d') from rfl]
        simp [hm]

theorem reserve_reserved_nonneg (db : List CostLog) (L : BudgetLedger) (x l : ℚ)
    (h1 : 0 ≤ L.x_reserved) (h2 : 0 ≤ L.llm_reserved) (hx : 0 ≤ x) (hl : 0 ≤ l) :
    0 ≤ (L.reserve db x l).1.x_reserved ∧ 0 ≤ (L.reserve db x l).1.llm_reserved := by
  unfold BudgetLedger.reserve
  dsimp only
  split_ifs with h
  · exact ⟨h1, h2⟩
  · exact ⟨add_nonneg h1 hx, add_nonneg h2 hl⟩

theorem commit_reserved_eq_zero (db : List CostLog) (L : BudgetLedger) :
    (L.commit db).2.x_reserved = 0 ∧ (L.commit db).2.llm_reserved = 0 := by
  unfold BudgetLedger.commit
  dsimp only
  split_ifs with h h2
  · exact ⟨h.1, h.2⟩
  · exact ⟨rfl, rfl⟩
  · exact ⟨rfl, rfl⟩

theorem ledgerStep_preserves (s : List CostLog × BudgetLedger) (op : LedgerOp)
    (hres : 0 ≤ s.2.x_reserved ∧ 0 ≤ s.2.llm_reserved) (hop : ledgerOpNonneg op) :
    (0 ≤ (ledgerStep s op).2.x_reserved ∧ 0 ≤ (ledgerStep s op).2.llm_reserved) ∧
    ∀ (a : ℕ) (d : ℤ),
      spentX s.1 a d ≤ spentX (ledgerStep s op).1 a d ∧
      spentLlm s.1 a d ≤ spentLlm (ledgerStep s op).1 a d ∧
      spentTotal s.1 a d ≤ spentTotal (ledgerStep s op).1 a d := by
  cases op with
  | reserveOp x l =>
    obtain ⟨hx, hl⟩ := hop
    have e1 : ledgerStep s (.reserveOp x l) = (s.1, (s.2.reserve s.1 x l).1) := rfl
    rw [e1]
    exact ⟨reserve_reserved_nonneg s.1 s.2 x l hres.1 hres.2 hx hl,
      fun a d => ⟨le_refl _, le_refl _, le_refl _⟩⟩
  | commitOp =>
    have e2 : ledgerStep s .commitOp = s.2.commit s.1 := rfl
    rw [e2]
    refine ⟨?_, ?_⟩
    · have h := commit_reserved_eq_zero s.1 s.2
      rw [h.1, h.2]
      exact ⟨le_refl 0, le_refl 0⟩
    · intro a d
      have hX := sumCost_commit s.2 s.1 a d (·.x_api_cost) s.2.x_reserved
        (fun r => rfl) rfl (fun h _ => h)
      have hL := sumCost_commit s.2 s.1 a d (·.llm_cost) s.2.llm_reserved
        (fun r => rfl) rfl (fun _ h => h)
      have hT := sumCost_commit s.2 s.1 a d (·.total) (s.2.x_reserved + s.2.llm_reserved)
        (fun r => rfl) rfl (fun h1 h2 => by rw [h1, h2]; ring)
      unfold spentX spentLlm spentTotal
      rw [hX, hL, hT]
      refine ⟨?_, ?_, ?_⟩ <;>
      · have hnn : (0:ℚ) ≤ s.2.x_reserved + s.2.llm_reserved := add_nonneg hres.1 hres.2
        split_ifs <;> linarith [hres.1, hres.2]

/-! ## Claim theorems -/

/-- C1. `BudgetLedger.reserve(x_cost, llm_cost)` returns normally iff
`x_spent + x_reserved + x_cost ≤ x_limit`,
`llm_spent + llm_reserved + llm_cost ≤ llm_limit` and
`total_spent + x_reserved + llm_reserved + x_cost + llm_cost ≤ daily_limit`
over the committed CostLog sums; on success the reservations grow by
exactly the two costs, and on `BudgetExceededError` the ledger is
unchanged. -/
theorem budget_reserve_correct (db : List CostLog) (L : BudgetLedger) (x l : ℚ) :
    ((L.reserve db x l).2 = true ↔
      spentX db L.agent_id L.target_date + L.x_reserved + x ≤ L.x_limit ∧
      spentLlm db L.agent_id L.target_date + L.llm_reserved + l ≤ L.llm_limit ∧
      spentTotal db L.agent_id L.target_date + L.x_reserved + L.llm_reserved + x + l
        ≤ L.daily_limit) ∧
    ((L.reserve db x l).2 = true →
      (L.reserve db x l).1
        = { L with x_reserved := L.x_reserved + x, llm_reserved := L.llm_reserved + l }) ∧
    ((L.reserve db x l).2 = false → (L.reserve db x l).1 = L) := by
  unfold BudgetLedger.reserve
  dsimp only
  split_ifs with h
  · refine ⟨?_, ?_, ?_⟩
    · simp only [Bool.false_eq_true, false_iff]
      intro hc
      rcases h with h | h | h
      · exact absurd hc.1 (not_le.mpr h)
      · exact absurd hc.2.1 (not_le.mpr h)
      · exact absurd hc.2.2 (not_le.mpr h)
    · intro hc
      simp at hc
    · intro _
      rfl
  · push_neg at h
    refine ⟨?_, ?_, ?_⟩
    · simp only [true_iff]
      exact ⟨not_lt.mp (fun hc => absurd hc (not_lt.mpr h.1)),
        not_lt.mp (fun hc => absurd hc (not_lt.mpr h.2.1)),
        not_lt.mp (fun hc => absurd hc (not_lt.mpr h.2.2))⟩
    · intro _
      rfl
    · intro hc
      simp at hc

/-- Witness for C1 at a concrete ledger. -/
theorem budget_reserve_correct_witness :
    ((mkBudgetLedger 7 0 10 5 5).reserve [] 1 2).2 = true ∧
    ((mkBudgetLedger 7 0 10 5 5).reserve [] 1 2).1
      = { mkBudgetLedger 7 0 10 5 5 with x_reserved := 0 + 1, llm_reserved := 0 + 2 } := by
  have h := budget_reserve_correct [] (mkBudgetLedger 7 0 10 5 5) 1 2
  have hc := h.1.mpr
    (by norm_num [spentX, spentLlm, spentTotal, sumCost, mkBudgetLedger])
  exact ⟨hc, h.2.1 hc⟩

/-- C2. `BudgetLedger.commit()` increases the committed (agent, date)
sums of `x_api_cost` and `x_api_cost_estimate` by exactly `x_reserved`,
of `llm_cost` by exactly `llm_reserved` and of `total` by exactly their
sum (upserting the row), resets both reservations to zero, and leaves
the CostLog table untouched when both reservations are zero. -/
theorem budget_commit_correct (db : List CostLog) (L : BudgetLedger) :
    spentX (L.commit db).1 L.agent_id L.target_date
      = spentX db L.agent_id L.target_date + L.x_reserved ∧
    spentXEstimate (L.commit db).1 L.agent_id L.target_date
      = spentXEstimate db L.agent_id L.target_date + L.x_reserved ∧
    spentLlm (L.commit db).1 L.agent_id L.target_date
      = spentLlm db L.agent_id L.target_date + L.llm_reserved ∧
    spentTotal (L.commit db).1 L.agent_id L.target_date
      = spentTotal db L.agent_id L.target_date + (L.x_reserved + L.llm_reserved) ∧
    (L.commit db).2.x_reserved = 0 ∧ (L.commit db).2.llm_reserved = 0 ∧
    (L.x_reserved = 0 ∧ L.llm_reserved = 0 → (L.commit db).1 = db) := by
  have hkey : (L.agent_id == L.agent_id && L.target_date == L.target_date) = true := by
    simp
  have hX := sumCost_commit L db L.agent_id L.target_date (·.x_api_cost) L.x_reserved
    (fun r => rfl) rfl (fun h _ => h)
  have hE := sumCost_commit L db L.agent_id L.target_date (·.x_api_cost_estimate) L.x_reserved
    (fun r => rfl) rfl (fun h _ => h)
  have hL := sumCost_commit L db L.agent_id L.target_date (·.llm_cost) L.llm_reserved
    (fun r => rfl) rfl (fun _ h => h)
  have hT := sumCost_commit L db L.agent_id L.target_date (·.total)
    (L.x_reserved + L.llm_reserved) (fun r => rfl) rfl (fun h1 h2 => by rw [h1, h2]; ring)
  rw [hkey] at hX hE hL hT
  simp only [if_true] at hX hE hL hT
  refine ⟨hX, hE, hL, hT, (commit_reserved_eq_zero db L).1,
    (commit_reserved_eq_zero db L).2, ?_⟩
  intro h
  unfold BudgetLedger.commit
  simp [h]

/-- Witness for C2's no-op clause at a concrete ledger. -/
theorem budget_commit_correct_witness :
    ((mkBudgetLedger 7 0 10 5 5).commit
      [{ agent_id := 7, date := 0, x_api_cost := 1, x_api_cost_estimate := 1,
         llm_cost := 2, image_gen_cost := 0, total := 3 }]).1
      = [{ agent_id := 7, date := 0, x_api_cost := 1, x_api_cost_estimate := 1,
           llm_cost := 2, image_gen_cost := 0, total := 3 }] := by
  exact (budget_commit_correct
    [{ agent_id := 7, date := 0, x_api_cost := 1, x_api_cost_estimate := 1,
       llm_cost := 2, image_gen_cost := 0, total := 3 }]
    (mkBudgetLedger 7 0 10 5 5)).2.2.2.2.2.2 ⟨rfl, rfl⟩

/-- C3 (counterexample). The claim ranges over every sequence of
`reserve` and `commit` calls; a `reserve` with a negative cost argument
passes all three limit checks and, once committed, strictly decreases
the committed `x_api_cost` sum for the (agent, date). -/
theorem committed_spend_monotone_counterexample :
    spentX (runLedgerOps ([], mkBudgetLedger 1 0 0 0 0)
        [LedgerOp.reserveOp (-1) 0, LedgerOp.commitOp]).1 1 0
      < spentX ([] : List CostLog) 1 0 := by
  norm_num [runLedgerOps, ledgerStep, BudgetLedger.reserve, BudgetLedger.commit,
    spentX, spentLlm, spentTotal, sumCost, mkBudgetLedger, commitNewRow, updateFirstBy]

/-- C3 (amended). For every sequence of `reserve`/`commit` operations
whose reserve costs are non-negative — as every call site's costs are —
starting from a ledger with non-negative reservations (a fresh ledger
has zero), the committed CostLog sums of `x_api_cost`, `llm_cost` and
`total` for every (agent, date) never decrease across the run, hence
across any step of the sequence. -/
theorem committed_spend_monotone (ops : List LedgerOp)
    (s : List CostLog × BudgetLedger)
    (hres : 0 ≤ s.2.x_reserved ∧ 0 ≤ s.2.llm_reserved)
    (hops : ∀ op ∈ ops, ledgerOpNonneg op) (a : ℕ) (d : ℤ) :
    spentX s.1 a d ≤ spentX (runLedgerOps s ops).1 a d ∧
    spentLlm s.1 a d ≤ spentLlm (runLedgerOps s ops).1 a d ∧
    spentTotal s.1 a d ≤ spentTotal (runLedgerOps s ops).1 a d := by
  induction ops generalizing s with
  | nil => exact ⟨le_refl _, le_refl _, le_refl _⟩
  | cons op rest ih =>
    have hstep := ledgerStep_preserves s op hres (hops op (List.mem_cons_self op rest))
    have hrun : runLedgerOps s (op :: rest) = runLedgerOps (ledgerStep s op) rest := rfl
    have htail := ih (ledgerStep s op) hstep.1
      (fun o ho => hops o (List.mem_cons_of_mem op ho))
    rw [hrun]
    obtain ⟨h1, h2, h3⟩ := hstep.2 a d
    obtain ⟨g1, g2, g3⟩ := htail
    exact ⟨le_trans h1 g1, le_trans h2 g2, le_trans h3 g3⟩

/-- Witness for C3 at a concrete run: reserve then commit 1.00 + 2.00. -/
theorem committed_spend_monotone_witness :
    spentX ([] : List CostLog) 7 0
      ≤ spentX (runLedgerOps ([], mkBudgetLedger 7 0 10 5 5)
          [LedgerOp.reserveOp 1 2, LedgerOp.commitOp]).1 7 0 := by
  refine (committed_spend_monotone [LedgerOp.reserveOp 1 2, LedgerOp.commitOp]
    ([], mkBudgetLedger 7 0 10 5 5) ⟨le_refl 0, le_refl 0⟩ ?_ 7 0).1
  intro op hop
  rcases List.mem_cons.mp hop with rfl | hop2
  · exact ⟨by norm_num, by norm_num⟩
  rcases List.mem_cons.mp hop2 with rfl | hop3
  · trivial
  · cases hop3

theorem find?_updateFirstBy_self {α : Type} (l : List α) (p : α → Bool) (g : α → α)
    (hpg : ∀ x, p (g x) = p x) :
    (updateFirstBy l p g).find? p = (l.find? p).map g := by
  induction l with
  | nil => rfl
  | cons x xs ih =>
    by_cases hx : p x = true
    · have hgx : p (g x) = true := by rw [hpg]; exact hx
      simp [updateFirstBy, hx, List.find?, hgx]
    · have hx' : p x = false := Bool.eq_false_iff.mpr hx
      simp [updateFirstBy, hx', List.find?, ih]

/-- C6. `GuardManager.maybe_auto_stop` is idempotent per reason: an agent
already stopped with the same stop_reason is left untouched and no audit
row is appended; any other agent is set to status stopped with the given
stop_reason and stopped_at = now, and exactly one audit row with
event_type `auto_stop` and status `triggered` is appended. -/
theorem maybe_auto_stop_idempotent
    (agents : List Agent) (audits : List AuditLog) (pdcas : List DailyPDCA)
    (agent_id : ℕ) (now : ℤ) (reason source : String) (agent : Agent)
    (hfind : agents.find? (fun a => a.id == agent_id) = some agent) :
    (agent.status = AgentStatus.stopped ∧ agent.stop_reason = some reason →
      maybe_auto_stop agents audits pdcas agent_id now reason source
        = (agents, audits, pdcas)) ∧
    (¬(agent.status = AgentStatus.stopped ∧ agent.stop_reason = some reason) →
      (maybe_auto_stop agents audits pdcas agent_id now reason source).1.find?
          (fun a => a.id == agent_id)
        = some { agent with status := AgentStatus.stopped
                            stop_reason := some reason
                            stopped_at := some now } ∧
      (maybe_auto_stop agents audits pdcas agent_id now reason source).2.1
        = audits ++ [{ agent_id := agent_id, date := dateOf now, source := source
                       event_type := "auto_stop", status := "triggered"
                       reason := some reason }]) := by
  unfold maybe_auto_stop
  rw [hfind]
  dsimp only
  constructor
  · intro h
    rw [if_pos h]
  · intro h
    rw [if_neg h]
    dsimp only
    constructor
    · rw [find?_updateFirstBy_self agents (fun a => a.id == agent_id)
        (fun a => { a with status := AgentStatus.stopped
                           stop_reason := some reason
                           stopped_at := some now })
        (fun x => rfl), hfind]
      rfl
    · rfl

/-- Witness for C6 at a concrete active agent. -/
theorem maybe_auto_stop_idempotent_witness :
    (maybe_auto_stop
        [{ id := 3, account_id := 1, status := AgentStatus.active, feature_toggles := [],
           daily_budget := 300, budget_split_x := 100, budget_split_llm := 200,
           stop_reason := none, stopped_at := none, stop_until := none }]
        [] [] 3 86400 "auto_anomaly_posting_failures" "posting_jobs").2.1
      = [{ agent_id := 3, date := 1, source := "posting_jobs", event_type := "auto_stop",
           status := "triggered", reason := some "auto_anomaly_posting_failures" }] := by
  have h := (maybe_auto_stop_idempotent
    [{ id := 3, account_id := 1, status := AgentStatus.active, feature_toggles := [],
       daily_budget := 300, budget_split_x := 100, budget_split_llm := 200,
       stop_reason := none, stopped_at := none, stop_until := none }]
    [] [] 3 86400 "auto_anomaly_posting_failures" "posting_jobs"
    { id := 3, account_id := 1, status := AgentStatus.active, feature_toggles := [],
      daily_budget := 300, budget_split_x := 100, budget_split_llm := 200,
      stop_reason := none, stopped_at := none, stop_until := none }
    rfl).2 (by simp)
  exact h.2

theorem hasConfirmed_save_mono (rows : List PostMetrics) (pid q : ℕ)
    (m : ExternalPostMetrics) (t : ℤ) (h : hasConfirmed rows pid = true) :
    hasConfirmed (save_confirmed_metrics rows q m t).1 pid = true := by
  unfold save_confirmed_metrics
  split_ifs with h2
  · exact h
  · unfold hasConfirmed at h ⊢
    simp only [List.any_append, h, Bool.true_or]

theorem hasConfirmed_save_self (rows : List PostMetrics) (pid : ℕ)
    (m : ExternalPostMetrics) (t : ℤ) :
    hasConfirmed (save_confirmed_metrics rows pid m t).1 pid = true := by
  unfold save_confirmed_metrics
  split_ifs with h2
  · exact h2
  · unfold hasConfirmed
    simp [List.any_append]

theorem hasConfirmed_ingest_mono (posts : List (ℕ × ExternalPostMetrics))
    (rows : List PostMetrics) (pid : ℕ) (t : ℤ)
    (h : hasConfirmed rows pid = true) :
    hasConfirmed (ingestConfirmedMetrics rows posts t) pid = true := by
  induction posts generalizing rows with
  | nil => exact h
  | cons p ps ih =>
    have e : ingestConfirmedMetrics rows (p :: ps) t
        = ingestConfirmedMetrics (save_confirmed_metrics rows p.1 p.2 t).1 ps t := rfl
    rw [e]
    exact ih _ (hasConfirmed_save_mono rows pid p.1 p.2 t h)

theorem hasConfirmed_ingest_all (posts : List (ℕ × ExternalPostMetrics))
    (rows : List PostMetrics) (t : ℤ) :
    ∀ pm ∈ posts, hasConfirmed (ingestConfirmedMetrics rows posts t) pm.1 = true := by
  induction posts generalizing rows with
  | nil => intro pm hm; cases hm
  | cons p ps ih =>
    intro pm hm
    have e : ingestConfirmedMetrics rows (p :: ps) t
        = ingestConfirmedMetrics (save_confirmed_metrics rows p.1 p.2 t).1 ps t := rfl
    rw [e]
    rcases List.mem_cons.mp hm with rfl | hm2
    · exact hasConfirmed_ingest_mono ps _ pm.1 t (hasConfirmed_save_self rows pm.1 pm.2 t)
    · exact ih _ pm hm2

theorem ingest_noop (posts : List (ℕ × ExternalPostMetrics))
    (rows : List PostMetrics) (t : ℤ)
    (h : ∀ pm ∈ posts, hasConfirmed rows pm.1 = true) :
    ingestConfirmedMetrics rows posts t = rows := by
  induction posts with
  | nil => rfl
  | cons p ps ih =>
    have hsave : save_confirmed_metrics rows p.1 p.2 t = (rows, false) := by
      unfold save_confirmed_metrics
      rw [if_pos (h p (List.mem_cons_self p ps))]
    have e : ingestConfirmedMetrics rows (p :: ps) t
        = ingestConfirmedMetrics (save_confirmed_metrics rows p.1 p.2 t).1 ps t := rfl
    rw [e, hsave]
    exact ih (fun pm hm => h pm (List.mem_cons_of_mem p hm))

/-- C7. Confirmed-metrics ingestion is idempotent: `_save_confirmed_metrics`
inserts a confirmed PostMetrics row iff no confirmed row exists for the
post, and re-running the ingest loop over the same posts leaves the
PostMetrics table exactly as after the first run (the second run inserts
zero confirmed rows). -/
theorem confirmed_metrics_idempotent (rows : List PostMetrics) (pid : ℕ)
    (m : ExternalPostMetrics) (t t2 : ℤ) (posts : List (ℕ × ExternalPostMetrics)) :
    ((save_confirmed_metrics rows pid m t).2 = true ↔
      ∀ r ∈ rows, ¬(r.post_id = pid ∧ r.collection_type = MetricsCollectionType.confirmed)) ∧
    ingestConfirmedMetrics (ingestConfirmedMetrics rows posts t) posts t2
      = ingestConfirmedMetrics rows posts t := by
  constructor
  · unfold save_confirmed_metrics
    split_ifs with h
    · simp only [Bool.false_eq_true, false_iff]
      intro hc
      unfold hasConfirmed at h
      rw [List.any_eq_true] at h
      obtain ⟨r, hr, hpr⟩ := h
      rw [Bool.and_eq_true, beq_iff_eq, beq_iff_eq] at hpr
      exact hc r hr ⟨hpr.1, hpr.2⟩
    · simp only [true_iff]
      intro r hr hc
      apply h
      unfold hasConfirmed
      rw [List.any_eq_true]
      exact ⟨r, hr, by rw [Bool.and_eq_true, beq_iff_eq, beq_iff_eq]; exact hc⟩
  · exact ingest_noop posts _ t2 (hasConfirmed_ingest_all posts rows t)

/-- Witness for C7 at a concrete table: the second ingest of the same
post changes nothing. -/
theorem confirmed_metrics_idempotent_witness :
    ingestConfirmedMetrics
        (ingestConfirmedMetrics [] [(11, ⟨100, 10, 2, 3, 15⟩)] 5)
        [(11, ⟨100, 10, 2, 3, 15⟩)] 6
      = ingestConfirmedMetrics [] [(11, ⟨100, 10, 2, 3, 15⟩)] 5 := by
  exact (confirmed_metrics_idempotent [] 11 ⟨100, 10, 2, 3, 15⟩ 5 6
    [(11, ⟨100, 10, 2, 3, 15⟩)]).2

/-- C4 (counterexample). In `run_daily_routine` the rate-limit gate runs
before the pre-flight budget reservation, not after it: for an active
agent whose budget is exhausted (reserve of x=1.00, llm=2.00 raises) and
whose reply rate limit is simultaneously reached (three engagement
actions on the target date), the routine skips with reason
`rate_limited`, not `budget_exceeded` as the claimed step order would
require. -/
theorem daily_gate_order_counterexample :
    (dailyRoutineGates
        { id := 41, account_id := 1, status := AgentStatus.active, feature_toggles := [],
          daily_budget := 0, budget_split_x := 0, budget_split_llm := 0,
          stop_reason := none, stopped_at := none, stop_until := none }
        0 5 [] [⟨41, 5⟩, ⟨41, 5⟩, ⟨41, 5⟩] [] []).1
      = RoutineGateResult.skipResult "rate_limited" ∧
    ((mkBudgetLedger 41 5 0 0 0).reserve [] 1 2).2 = false ∧
    RoutineGateResult.skipResult "rate_limited"
      ≠ RoutineGateResult.skipResult "budget_exceeded" := by
  refine ⟨by decide, ?_, by decide⟩
  norm_num [BudgetLedger.reserve, spentX, spentLlm, spentTotal, sumCost, mkBudgetLedger]

/-- C4 (amended). The pre-flight reservation (x=1.00, llm=2.00) is gated
after the guard and rate-limit checks: for every runnable agent that is
not reply-rate-limited and whose reservation raises BudgetExceeded, the
routine inserts a PDCA row with status skip and reason `budget_exceeded`
(when none exists for the agent and target date) and returns skip with
reason `budget_exceeded`; when the rate limit is reached the routine
instead returns skip with reason `rate_limited` regardless of budget. -/
theorem daily_routine_budget_skip
    (agent : Agent) (now target_date : ℤ) (costs : List CostLog)
    (engagements : List EngagementAction) (pdcas : List DailyPDCA) (audits : List AuditLog)
    (hrun : is_agent_runnable agent now = true)
    (hrate : rate_is_limited engagements agent.id target_date 1 3 = false)
    (hbudget : ((mkBudgetLedger agent.id target_date agent.daily_budget
        agent.budget_split_x agent.budget_split_llm).reserve costs 1 2).2 = false)
    (hnopdca : pdcas.find? (fun p => p.agent_id == agent.id && p.date == target_date)
        = none) :
    dailyRoutineGates agent now target_date costs engagements pdcas audits
      = (RoutineGateResult.skipResult "budget_exceeded",
         pdcas ++ [{ agent_id := agent.id, date := target_date,
                     analysis_status := "skipped", analysis_reason := "budget_exceeded",
                     auto_stop := none, posting_errors := [] }],
         audits) := by
  unfold dailyRoutineGates
  rw [hrun]
  simp only [not_true, if_false, Bool.true_eq_false, ite_false]
  rw [hrate]
  simp only [Bool.false_eq_true, if_false, ite_false]
  rcases hR : (mkBudgetLedger agent.id target_date agent.daily_budget
      agent.budget_split_x agent.budget_split_llm).reserve costs 1 2 with ⟨L1, b⟩
  rw [hR] at hbudget
  simp only at hbudget
  subst hbudget
  unfold insertPdcaIfAbsent
  rw [hnopdca]
  rfl

/-- Witness for C4 at the budget-exceeded scenario agent (daily budget 2,
splits 1/1, no engagement actions). -/
theorem daily_routine_budget_skip_witness :
    (dailyRoutineGates
        { id := 31, account_id := 1, status := AgentStatus.active, feature_toggles := [],
          daily_budget := 2, budget_split_x := 1, budget_split_llm := 1,
          stop_reason := none, stopped_at := none, stop_until := none }
        0 5 [] [] [] []).1
      = RoutineGateResult.skipResult "budget_exceeded" := by
  rw [daily_routine_budget_skip
    { id := 31, account_id := 1, status := AgentStatus.active, feature_toggles := [],
      daily_budget := 2, budget_split_x := 1, budget_split_llm := 1,
      stop_reason := none, stopped_at := none, stop_until := none }
    0 5 [] [] [] [] (by decide) (by decide)
    (by norm_num [BudgetLedger.reserve, spentX, spentLlm, spentTotal, sumCost,
      mkBudgetLedger])
    rfl]

/-- C9 (counterexample). The cap handed to the RateLimiter in
`run_posting_jobs` comes from `_agent_toggle_int`, which applies no
upper-range check: the toggle value 101 — outside the allowlisted range
[0, 100] that `read_int_toggle` would enforce — yields cap 101 rather
than the default 3. -/
theorem reply_quote_cap_counterexample :
    agent_toggle_int [("reply_quote_daily_max", PyVal.pyInt 101)]
        "reply_quote_daily_max" 3 = 101 ∧
    read_int_toggle [("reply_quote_daily_max", PyVal.pyInt 101)]
        "reply_quote_daily_max" 3 = 3 ∧
    (101 : ℤ) ≠ 3 := by
  refine ⟨by decide, by decide, by decide⟩

/-- C9 (amended). The effective reply/quote daily cap is
`_agent_toggle_int(agent, "reply_quote_daily_max", 3)`: the default 3
when the toggle is missing or not `int()`-convertible, and otherwise
`max 0` of the converted value, with no upper-range check (the [0, 100]
allowlist range of `read_int_toggle` is not consulted on this path). -/
theorem reply_quote_cap_amended (toggles : List (String × PyVal)) :
    (lookupToggle toggles "reply_quote_daily_max" = none →
      agent_toggle_int toggles "reply_quote_daily_max" 3 = 3) ∧
    (∀ n : ℤ, lookupToggle toggles "reply_quote_daily_max" = some (.pyInt n) →
      agent_toggle_int toggles "reply_quote_daily_max" 3 = max 0 n) ∧
    (∀ v : PyVal, lookupToggle toggles "reply_quote_daily_max" = some v →
      pyIntOf v = none →
      agent_toggle_int toggles "reply_quote_daily_max" 3 = 3) := by
  unfold agent_toggle_int
  refine ⟨?_, ?_, ?_⟩
  · intro h
    rw [h]
    decide
  · intro n h
    rw [h]
    rfl
  · intro v h hv
    rw [h]
    dsimp only
    rw [hv]

/-- Witness for C9 at a concrete in-range toggle value. -/
theorem reply_quote_cap_amended_witness :
    agent_toggle_int [("reply_quote_daily_max", PyVal.pyInt 5)]
        "reply_quote_daily_max" 3 = max 0 5 := by
  exact (reply_quote_cap_amended
    [("reply_quote_daily_max", PyVal.pyInt 5)]).2.1 5 (by decide)

theorem takeWhile_append_stop (p : Char → Bool) (h t : List Char)
    (hall : ∀ c ∈ h, p c = true) (c : Char) (hc : p c = false) :
    (h ++ c :: t).takeWhile p = h ∧ (h ++ c :: t).dropWhile p = c :: t := by
  induction h with
  | nil => simp [List.takeWhile, List.dropWhile, hc]
  | cons a as ih =>
    have ha : p a = true := hall a (List.mem_cons_self a as)
    have ih2 := ih (fun x hx => hall x (List.mem_cons_of_mem a hx))
    simp [List.takeWhile, List.dropWhile, ha, ih2.1, ih2.2]

theorem takeWhile_of_all (p : Char → Bool) (d : List Char)
    (hall : ∀ c ∈ d, p c = true) :
    d.takeWhile p = d ∧ d.dropWhile p = [] := by
  induction d with
  | nil => simp
  | cons a as ih =>
    have ha : p a = true := hall a (List.mem_cons_self a as)
    have ih2 := ih (fun x hx => hall x (List.mem_cons_of_mem a hx))
    simp [List.takeWhile, List.dropWhile, ha, ih2.1, ih2.2]

theorem stripCI_self (p rest : List Char) : stripCI p (p ++ rest) = some rest := by
  induction p with
  | nil => rfl
  | cons c cs ih =>
    simp [stripCI, ih]

theorem matchIdDigits_spec (d suffix : List Char) (hd1 : d ≠ [])
    (hd2 : ∀ c ∈ d, c.isDigit = true)
    (hs : suffix = [] ∨ ∃ c t, suffix = c :: t ∧ isUrlSep c = true) :
    matchIdDigits (d ++ suffix) = some d := by
  rcases hs with rfl | ⟨c, t, rfl, hc⟩
  · have h := takeWhile_of_all Char.isDigit d hd2
    rw [List.append_nil]
    unfold matchIdDigits
    rw [h.1, h.2]
    simp [hd1]
  · by_cases hcd : c.isDigit = true
    · rcases c with ⟨cv, hcv⟩
      exfalso
      revert hc hcd
      unfold isUrlSep Char.isDigit
      intro hc hcd
      rcases (Bool.or_eq_true _ _).mp hc with h1 | h1
      · rcases (Bool.or_eq_true _ _).mp h1 with h2 | h2 <;>
          (first
            | (have : cv = 47 := by
                have := eq_of_beq h2
                injection this
               subst this
               simp at hcd)
            | (have : cv = 63 := by
                have := eq_of_beq h2
                injection this
               subst this
               simp at hcd))
      · have : cv = 35 := by
          have := eq_of_beq h1
          injection this
        subst this
        simp at hcd
    · have hcd' : c.isDigit = false := Bool.eq_false_iff.mpr hcd
      have h := takeWhile_append_stop Char.isDigit d t hd2 c hcd'
      unfold matchIdDigits
      rw [h.1, h.2]
      simp [hd1, hc]

theorem matchStatusPath_handle (h d suffix : List Char) (hh1 : h ≠ [])
    (hh2 : ∀ c ∈ h, isUrlSep c = false)
    (hd1 : d ≠ []) (hd2 : ∀ c ∈ d, c.isDigit = true)
    (hs : suffix = [] ∨ ∃ c t, suffix = c :: t ∧ isUrlSep c = true) :
    matchStatusPath
        (h ++ '/' :: 's' :: 't' :: 'a' :: 't' :: 'u' :: 's' :: '/' :: (d ++ suffix))
      = some d := by
  have hp : ∀ c ∈ h, (!(isUrlSep c)) = true := by
    intro c hc
    rw [hh2 c hc]
    rfl
  have hslash : (!(isUrlSep '/')) = false := rfl
  have htw := takeWhile_append_stop (fun c => !(isUrlSep c)) h
    ('s' :: 't' :: 'a' :: 't' :: 'u' :: 's' :: '/' :: (d ++ suffix)) hp '/' hslash
  unfold matchStatusPath
  rw [htw.1, htw.2]
  have hstrip : stripCI "status".toList
      ('s' :: 't' :: 'a' :: 't' :: 'u' :: 's' :: '/' :: (d ++ suffix))
      = some ('/' :: (d ++ suffix)) :=
    stripCI_self "status".toList ('/' :: (d ++ suffix))
  simp only [List.isEmpty_iff, hh1, if_false, ite_false, hstrip, Option.bind_some,
    Option.bind]
  have hid : matchSlashId ('/' :: (d ++ suffix)) = some d := by
    unfold matchSlashId
    exact matchIdDigits_spec d suffix hd1 hd2 hs
  rw [hid]
  rfl

theorem matchStatusPath_iweb (s : List Char) :
    matchStatusPath
        ('i' :: '/' :: 'w' :: 'e' :: 'b' :: '/' ::
          's' :: 't' :: 'a' :: 't' :: 'u' :: 's' :: '/' :: s)
      = matchIdDigits s := rfl

theorem matchHost_x (s : List Char) (ds : List Char)
    (h : matchStatusPath s = some ds) :
    matchHost ('x' :: '.' :: 'c' :: 'o' :: 'm' :: '/' :: s) = some ds := by
  unfold matchHost
  rw [show stripCI "x.com/".toList ('x' :: '.' :: 'c' :: 'o' :: 'm' :: '/' :: s)
      = some s from stripCI_self "x.com/".toList s]
  simp [Option.orElse, h]

theorem matchHost_tw (s : List Char) (ds : List Char)
    (h : matchStatusPath s = some ds) :
    matchHost ('t' :: 'w' :: 'i' :: 't' :: 't' :: 'e' :: 'r' ::
        '.' :: 'c' :: 'o' :: 'm' :: '/' :: s) = some ds := by
  unfold matchHost
  rw [show stripCI "x.com/".toList ('t' :: 'w' :: 'i' :: 't' :: 't' :: 'e' :: 'r' ::
      '.' :: 'c' :: 'o' :: 'm' :: '/' :: s) = none from rfl]
  rw [show stripCI "twitter.com/".toList ('t' :: 'w' :: 'i' :: 't' :: 't' :: 'e' :: 'r' ::
      '.' :: 'c' :: 'o' :: 'm' :: '/' :: s) = some s from stripCI_self "twitter.com/".toList s]
  simp [Option.orElse, h]

theorem matchWww_x (s : List Char) (ds : List Char)
    (h : matchStatusPath s = some ds) :
    matchWww ('x' :: '.' :: 'c' :: 'o' :: 'm' :: '/' :: s) = some ds := by
  unfold matchWww
  rw [show stripCI "www.".toList ('x' :: '.' :: 'c' :: 'o' :: 'm' :: '/' :: s)
      = none from rfl]
  simp [Option.orElse, matchHost_x s ds h]

theorem matchWww_tw (s : List Char) (ds : List Char)
    (h : matchStatusPath s = some ds) :
    matchWww ('t' :: 'w' :: 'i' :: 't' :: 't' :: 'e' :: 'r' ::
        '.' :: 'c' :: 'o' :: 'm' :: '/' :: s) = some ds := by
  unfold matchWww
  rw [show stripCI "www.".toList ('t' :: 'w' :: 'i' :: 't' :: 't' :: 'e' :: 'r' ::
      '.' :: 'c' :: 'o' :: 'm' :: '/' :: s) = none from rfl]
  simp [Option.orElse, matchHost_tw s ds h]

theorem matchScheme_https (s : List Char) (ds : List Char)
    (h : matchWww s = some ds) :
    matchScheme ('h' :: 't' :: 't' :: 'p' :: 's' :: ':' :: '/' :: '/' :: s)
      = some ds := by
  unfold matchScheme
  rw [show stripCI "https://".toList
      ('h' :: 't' :: 't' :: 'p' :: 's' :: ':' :: '/' :: '/' :: s)
      = some s from stripCI_self "https://".toList s]
  simp [Option.orElse, h]

theorem matchScheme_http (s : List Char) (ds : List Char)
    (h : matchWww s = some ds) :
    matchScheme ('h' :: 't' :: 't' :: 'p' :: ':' :: '/' :: '/' :: s)
      = some ds := by
  unfold matchScheme
  rw [show stripCI "https://".toList
      ('h' :: 't' :: 't' :: 'p' :: ':' :: '/' :: '/' :: s) = none from rfl]
  rw [show stripCI "http://".toList
      ('h' :: 't' :: 't' :: 'p' :: ':' :: '/' :: '/' :: s)
      = some s from stripCI_self "http://".toList s]
  simp [Option.orElse, h]

theorem extract_of_matchScheme (c : Char) (rest : List Char) (d : String)
    (h : matchScheme (c :: rest) = some d.toList) :
    (match searchTweetId (c :: rest) with
      | some ds => String.mk ds
      | none => "") = d := by
  unfold searchTweetId
  rw [h]
  rfl

/-- C8 (counterexample). `extract_tweet_id` does not return the empty
string for every input outside the listed https forms: the regex scheme
is optional (`(?:https?://)?`) and the pattern is searched anywhere in
the string, so the http variant of a status URL — not among the claimed
forms — still yields its id. -/
theorem extract_tweet_id_counterexample :
    extract_tweet_id "http://x.com/u/status/5" = "5" ∧ ("5" : String) ≠ "" := by
  refine ⟨by decide, by decide⟩

/-- C8 (amended). `extract_tweet_id` returns the numeric id for every
URL of the forms `https://x.com/<handle>/status/<id>`,
`https://twitter.com/<handle>/status/<id>`,
`https://x.com/i/web/status/<id>`, and those forms with a trailing
`/photo/1` or `?s=20` — for every non-empty handle free of `/?#` and
every non-empty digit id; but the matcher is scheme-optional,
case-insensitive and substring-searched, so some other inputs (for
example the `http://` variants, proved below) also yield an id instead
of the empty string. -/
theorem extract_tweet_id_amended (u d : String)
    (hu1 : u.toList ≠ []) (hu2 : ∀ c ∈ u.toList, isUrlSep c = false)
    (hd1 : d.toList ≠ []) (hd2 : ∀ c ∈ d.toList, c.isDigit = true) :
    extract_tweet_id ("https://x.com/" ++ u ++ "/status/" ++ d) = d ∧
    extract_tweet_id ("https://twitter.com/" ++ u ++ "/status/" ++ d) = d ∧
    extract_tweet_id ("https://x.com/i/web/status/" ++ d) = d ∧
    extract_tweet_id ("https://x.com/" ++ u ++ "/status/" ++ d ++ "/photo/1") = d ∧
    extract_tweet_id ("https://x.com/" ++ u ++ "/status/" ++ d ++ "?s=20") = d ∧
    extract_tweet_id ("http://x.com/" ++ u ++ "/status/" ++ d) = d := by
  have hPnil : matchStatusPath
      (u.toList ++ '/' :: 's' :: 't' :: 'a' :: 't' :: 'u' :: 's' :: '/' :: d.toList)
      = some d.toList := by
    have h := matchStatusPath_handle u.toList d.toList [] hu1 hu2 hd1 hd2 (Or.inl rfl)
    rwa [List.append_nil] at h
  have hPphoto : matchStatusPath
      (u.toList ++ '/' :: 's' :: 't' :: 'a' :: 't' :: 'u' :: 's' :: '/' ::
        (d.toList ++ ['/', 'p', 'h', 'o', 't', 'o', '/', '1']))
      = some d.toList :=
    matchStatusPath_handle u.toList d.toList ['/', 'p', 'h', 'o', 't', 'o', '/', '1']
      hu1 hu2 hd1 hd2 (Or.inr ⟨'/', _, rfl, rfl⟩)
  have hPq : matchStatusPath
      (u.toList ++ '/' :: 's' :: 't' :: 'a' :: 't' :: 'u' :: 's' :: '/' ::
        (d.toList ++ ['?', 's', '=', '2', '0']))
      = some d.toList :=
    matchStatusPath_handle u.toList d.toList ['?', 's', '=', '2', '0']
      hu1 hu2 hd1 hd2 (Or.inr ⟨'?', _, rfl, rfl⟩)
  have hPiweb : matchStatusPath
      ('i' :: '/' :: 'w' :: 'e' :: 'b' :: '/' ::
        's' :: 't' :: 'a' :: 't' :: 'u' :: 's' :: '/' :: d.toList)
      = some d.toList := by
    rw [matchStatusPath_iweb]
    have h := matchIdDigits_spec d.toList [] hd1 hd2 (Or.inl rfl)
    rwa [List.append_nil] at h
  have e1 : ("https://x.com/" ++ u ++ "/status/" ++ d).toList
      = 'h' :: 't' :: 't' :: 'p' :: 's' :: ':' :: '/' :: '/' ::
        ('x' :: '.' :: 'c' :: 'o' :: 'm' :: '/' ::
          (u.toList ++ '/' :: 's' :: 't' :: 'a' :: 't' :: 'u' :: 's' :: '/' :: d.toList)) := by
    simp only [String.toList, String.data_append]
    simp [List.append_assoc]
  have e2 : ("https://twitter.com/" ++ u ++ "/status/" ++ d).toList
      = 'h' :: 't' :: 't' :: 'p' :: 's' :: ':' :: '/' :: '/' ::
        ('t' :: 'w' :: 'i' :: 't' :: 't' :: 'e' :: 'r' :: '.' :: 'c' :: 'o' :: 'm' :: '/' ::
          (u.toList ++ '/' :: 's' :: 't' :: 'a' :: 't' :: 'u' :: 's' :: '/' :: d.toList)) := by
    simp only [String.toList, String.data_append]
    simp [List.append_assoc]
  have e3 : ("https://x.com/i/web/status/" ++ d).toList
      = 'h' :: 't' :: 't' :: 'p' :: 's' :: ':' :: '/' :: '/' ::
        ('x' :: '.' :: 'c' :: 'o' :: 'm' :: '/' ::
          ('i' :: '/' :: 'w' :: 'e' :: 'b' :: '/' ::
            's' :: 't' :: 'a' :: 't' :: 'u' :: 's' :: '/' :: d.toList)) := by
    simp only [String.toList, String.data_append]
    simp [List.append_assoc]
  have e4 : ("https://x.com/" ++ u ++ "/status/" ++ d ++ "/photo/1").toList
      = 'h' :: 't' :: 't' :: 'p' :: 's' :: ':' :: '/' :: '/' ::
        ('x' :: '.' :: 'c' :: 'o' :: 'm' :: '/' ::
          (u.toList ++ '/' :: 's' :: 't' :: 'a' :: 't' :: 'u' :: 's' :: '/' ::
            (d.toList ++ ['/', 'p', 'h', 'o', 't', 'o', '/', '1']))) := by
    simp only [String.toList, String.data_append]
    simp [List.append_assoc]
  have e5 : ("https://x.com/" ++ u ++ "/status/" ++ d ++ "?s=20").toList
      = 'h' :: 't' :: 't' :: 'p' :: 's' :: ':' :: '/' :: '/' ::
        ('x' :: '.' :: 'c' :: 'o' :: 'm' :: '/' ::
          (u.toList ++ '/' :: 's' :: 't' :: 'a' :: 't' :: 'u' :: 's' :: '/' ::
            (d.toList ++ ['?', 's', '=', '2', '0']))) := by
    simp only [String.toList, String.data_append]
    simp [List.append_assoc]
  have e6 : ("http://x.com/" ++ u ++ "/status/" ++ d).toList
      = 'h' :: 't' :: 't' :: 'p' :: ':' :: '/' :: '/' ::
        ('x' :: '.' :: 'c' :: 'o' :: 'm' :: '/' ::
          (u.toList ++ '/' :: 's' :: 't' :: 'a' :: 't' :: 'u' :: 's' :: '/' :: d.toList)) := by
    simp only [String.toList, String.data_append]
    simp [List.append_assoc]
  refine ⟨?_, ?_, ?_, ?_, ?_, ?_⟩
  · unfold extract_tweet_id
    rw [e1]
    exact extract_of_matchScheme _ _ d (matchScheme_https _ _ (matchWww_x _ _ hPnil))
  · unfold extract_tweet_id
    rw [e2]
    exact extract_of_matchScheme _ _ d (matchScheme_https _ _ (matchWww_tw _ _ hPnil))
  · unfold extract_tweet_id
    rw [e3]
    exact extract_of_matchScheme _ _ d (matchScheme_https _ _ (matchWww_x _ _ hPiweb))
  · unfold extract_tweet_id
    rw [e4]
    exact extract_of_matchScheme _ _ d (matchScheme_https _ _ (matchWww_x _ _ hPphoto))
  · unfold extract_tweet_id
    rw [e5]
    exact extract_of_matchScheme _ _ d (matchScheme_https _ _ (matchWww_x _ _ hPq))
  · unfold extract_tweet_id
    rw [e6]
    exact extract_of_matchScheme _ _ d (matchScheme_http _ _ (matchWww_x _ _ hPnil))

/-- Witness for C8 at the concrete URLs of the spec's test list. -/
theorem extract_tweet_id_amended_witness :
    extract_tweet_id "https://x.com/u/status/123" = "123" ∧
    extract_tweet_id "https://twitter.com/u/status/123" = "123" ∧
    extract_tweet_id "https://x.com/i/web/status/123" = "123" ∧
    extract_tweet_id "https://x.com/u/status/123/photo/1" = "123" ∧
    extract_tweet_id "https://x.com/u/status/123?s=20" = "123" ∧
    extract_tweet_id "http://x.com/u/status/123" = "123" := by
  exact extract_tweet_id_amended "u" "123" (by decide) (by decide) (by decide) (by decide)

theorem find?_updateFirstBy_none {α : Type} (l : List α) (q p : α → Bool) (f : α → α)
    (h1 : ∀ x, q x = true → p x = false)
    (h2 : ∀ x, q x = true → p (f x) = false) :
    (updateFirstBy l q f).find? p = l.find? p := by
  induction l with
  | nil => rfl
  | cons x xs ih =>
    by_cases hq : q x = true
    · simp [updateFirstBy, hq, List.find?, h1 x hq, h2 x hq]
    · have hq' : q x = false := Bool.eq_false_iff.mpr hq
      by_cases hp : p x = true
      · simp [updateFirstBy, hq', List.find?, hp]
      · have hp' : p x = false := Bool.eq_false_iff.mpr hp
        simp [updateFirstBy, hq', List.find?, hp', ih]

theorem updateFirstBy_mem {α : Type} (l : List α) (q : α → Bool) (f : α → α) :
    ∀ x ∈ updateFirstBy l q f, x ∈ l ∨ ∃ y ∈ l, q y = true ∧ x = f y := by
  induction l with
  | nil => intro x hx; cases hx
  | cons a as ih =>
    intro x hx
    by_cases hq : q a = true
    · rw [updateFirstBy, if_pos hq] at hx
      rcases List.mem_cons.mp hx with rfl | hx2
      · exact Or.inr ⟨a, List.mem_cons_self a as, hq, rfl⟩
      · exact Or.inl (List.mem_cons_of_mem a hx2)
    · rw [updateFirstBy, if_neg hq] at hx
      rcases List.mem_cons.mp hx with rfl | hx2
      · exact Or.inl (List.mem_cons_self x as)
      · rcases ih x hx2 with h | ⟨y, hy, hqy, rfl⟩
        · exact Or.inl (List.mem_cons_of_mem a h)
        · exact Or.inr ⟨y, List.mem_cons_of_mem a hy, hqy, rfl⟩

theorem countFailedAudits_append (a : List AuditLog) (row : AuditLog) :
    countFailedAudits (a ++ [row])
      = countFailedAudits a + (if row.status == "failed" then 1 else 0) := by
  unfold countFailedAudits
  rw [List.filter_append]
  by_cases h : (row.status == "failed") = true
  · simp [h]
  · have h' : (row.status == "failed") = false := Bool.eq_false_iff.mpr h
    simp [h']

theorem maybe_auto_stop_countFailed (agents : List Agent) (audits : List AuditLog)
    (pdcas : List DailyPDCA) (agent_id : ℕ) (now : ℤ) (reason source : String) :
    countFailedAudits (maybe_auto_stop agents audits pdcas agent_id now reason source).2.1
      = countFailedAudits audits := by
  unfold maybe_auto_stop
  rcases h : agents.find? (fun a => a.id == agent_id) with _ | agent
  · rw [h]
  · rw [h]
    dsimp only
    split_ifs with h2
    · rfl
    · rw [countFailedAudits_append]
      rfl

theorem maybe_auto_stop_same_tables (agents : List Agent) (audits : List AuditLog)
    (pdcas : List DailyPDCA) (agent_id : ℕ) (now : ℤ) (reason source : String) :
    ∃ extra : List AuditLog,
      (maybe_auto_stop agents audits pdcas agent_id now reason source).2.1
        = audits ++ extra := by
  unfold maybe_auto_stop
  rcases h : agents.find? (fun a => a.id == agent_id) with _ | agent
  · rw [h]
    exact ⟨[], by simp⟩
  · rw [h]
    dsimp only
    split_ifs with h2
    · exact ⟨[], by simp⟩
    · exact ⟨_, rfl⟩

theorem postingGenericFailure_spec (env : PostingEnv) (st : PostingState)
    (post : Post) (etype : String) :
    (postingGenericFailure env st post etype).2 = some (.failedR post.id etype) ∧
    (postingGenericFailure env st post etype).1.posts = st.posts ∧
    (postingGenericFailure env st post etype).1.cost_logs = st.cost_logs ∧
    (postingGenericFailure env st post etype).1.poster_calls = st.poster_calls ∧
    countFailedAudits (postingGenericFailure env st post etype).1.audits
      = countFailedAudits st.audits + 1 := by
  unfold postingGenericFailure
  dsimp only
  split_ifs with h
  · refine ⟨rfl, rfl, rfl, rfl, ?_⟩
    dsimp only
    rw [maybe_auto_stop_countFailed, countFailedAudits_append]
    rfl
  · refine ⟨rfl, rfl, rfl, rfl, ?_⟩
    dsimp only
    rw [countFailedAudits_append]
    rfl

theorem isDuePost_fields (post : Post) (now : ℤ) (h : isDuePost post now = true) :
    post.posted_at = none ∧ ∃ t, post.scheduled_at = some t ∧ t ≤ now := by
  unfold isDuePost at h
  rcases hs : post.scheduled_at with _ | t
  · rw [hs] at h
    cases h
  · rw [hs] at h
    rw [Bool.and_eq_true, decide_eq_true_iff] at h
    exact ⟨Option.isNone_iff_eq_none.mp h.2, t, rfl, h.1⟩

theorem processPost_after_gates (env : PostingEnv) (st : PostingState) (post : Post)
    (agent : Agent)
    (hposted : post.posted_at = none)
    (hagent : st.agents.find? (fun a => a.id == post.agent_id) = some agent)
    (hrun : is_agent_runnable agent env.now = true)
    (hrate : (post.type == PostType.reply || post.type == PostType.quote_rt) = true →
      rate_is_limited st.engagements post.agent_id (dateOf env.now)
        (st.engagement_attempts + 1)
        (agent_toggle_int agent.feature_toggles "reply_quote_daily_max" 3) = false)
    (hdup : st.posts.find? (fun q =>
        q.agent_id == post.agent_id && !(q.id == post.id) &&
        q.content_hash == (backfillPost env post).content_hash &&
        q.content_bucket_date == (backfillPost env post).content_bucket_date &&
        q.posted_at.isSome) = none)
    (hbudget : ((mkBudgetLedger post.agent_id (dateOf env.now) agent.daily_budget
        agent.budget_split_x agent.budget_split_llm).reserve st.cost_logs 1 0).2 = true) :
    processPost env st post =
      (let post1 := backfillPost env post
       let stB := if (post.type == PostType.reply || post.type == PostType.quote_rt)
         then { st with engagement_attempts := st.engagement_attempts + 1 } else st
       let st2 := { stB with
         posts := updateFirstBy stB.posts (fun q => q.id == post.id) (fun _ => post1) }
       let ledger1 := ((mkBudgetLedger post.agent_id (dateOf env.now) agent.daily_budget
           agent.budget_split_x agent.budget_split_llm).reserve st.cost_logs 1 0).1
       let pw := post_with_type env.posterFn post1
       let st3 := { st2 with
         poster_calls := st2.poster_calls + (if pw.2 then 1 else 0) }
       match pw.1 with
       | .okOut ext =>
         ({ st3 with
             posts := updateFirstBy st3.posts (fun q => q.id == post.id)
               (fun _ => { post1 with external_id := some ext, posted_at := some env.now })
             cost_logs := (ledger1.commit st3.cost_logs).1
             audits := st3.audits ++
               [{ agent_id := agent.id, date := dateOf env.now, source := "posting_jobs"
                  event_type := "posting", status := "success", reason := none }] },
           some (.postedR post.id ext))
       | .invalidUrlOut =>
         ({ st3 with
             pdcas := appendPdcaError st3.pdcas post.agent_id (dateOf env.now)
               "invalid_target_url"
             audits := st3.audits ++
               [{ agent_id := post.agent_id, date := dateOf env.now
                  source := "posting_jobs", event_type := "posting"
                  status := "skipped", reason := some "invalid_target_url" }] },
           some (.skippedR post.id "invalid_target_url"))
       | .errorOut etype => postingGenericFailure env st3 post etype) := by
  have hpost1 := backfillPost env post
  unfold processPost
  rw [if_neg (by rw [hposted]; simp)]
  rw [hagent]
  dsimp only
  rw [if_neg (by rw [hrun]; simp)]
  have hdup2 : ∀ (l : List Post),
      (updateFirstBy l (fun q => q.id == post.id) (fun _ => backfillPost env post)).find?
        (fun q =>
          q.agent_id == post.agent_id && !(q.id == post.id) &&
          q.content_hash == (backfillPost env post).content_hash &&
          q.content_bucket_date == (backfillPost env post).content_bucket_date &&
          q.posted_at.isSome)
      = l.find? (fun q =>
          q.agent_id == post.agent_id && !(q.id == post.id) &&
          q.content_hash == (backfillPost env post).content_hash &&
          q.content_bucket_date == (backfillPost env post).content_bucket_date &&
          q.posted_at.isSome) := by
    intro l
    apply find?_updateFirstBy_none
    · intro x hx
      simp [hx]
    · intro x hx
      simp [backfillPost]
  have hpair : (mkBudgetLedger post.agent_id (dateOf env.now) agent.daily_budget
      agent.budget_split_x agent.budget_split_llm).reserve st.cost_logs 1 0
      = (((mkBudgetLedger post.agent_id (dateOf env.now) agent.daily_budget
          agent.budget_split_x agent.budget_split_llm).reserve st.cost_logs 1 0).1,
         true) := by
    rw [← hbudget]
  by_cases hEng : (post.type == PostType.reply || post.type == PostType.quote_rt) = true
  · rw [hEng]
    rw [if_neg (by rw [hrate hEng]; simp)]
    simp only [eq_self_iff_true, if_true]
    rw [hdup2 st.posts, hdup, hpair]
  · have hEng' : (post.type == PostType.reply || post.type == PostType.quote_rt) = false :=
      Bool.eq_false_iff.mpr hEng
    rw [hEng']
    rw [if_neg (by simp)]
    simp only [Bool.false_eq_true, if_false]
    rw [hdup2 st.posts, hdup, hpair]

/-- C5 (counterexample). A due reply post with an invalid target URL is
not always skipped with `invalid_target_url`: the engagement rate gate
runs before the URL check, so when the agent's reply/quote limit is
already reached the worker returns `rate_limited` for that post. -/
theorem posting_invalid_url_counterexample :
    isDuePost
        { id := 1, agent_id := 9, external_id := none, content := "r"
          type := PostType.reply
          target_post_url := some "https://example.com/not-a-status-url"
          thread_parts := none, content_hash := none, content_bucket_date := none
          scheduled_at := some 0, posted_at := none } 86400 = true ∧
    extract_tweet_id "https://example.com/not-a-status-url" = "" ∧
    (processPost
        { hashFn := fun _ _ => "h", posterFn := fun _ => Except.ok "ext-1", now := 86400 }
        { agents := [{ id := 9, account_id := 1, status := AgentStatus.active
                       feature_toggles := [], daily_budget := 300, budget_split_x := 100
                       budget_split_llm := 200, stop_reason := none, stopped_at := none
                       stop_until := none }]
          posts := [{ id := 1, agent_id := 9, external_id := none, content := "r"
                      type := PostType.reply
                      target_post_url := some "https://example.com/not-a-status-url"
                      thread_parts := none, content_hash := none
                      content_bucket_date := none
                      scheduled_at := some 0, posted_at := none }]
          cost_logs := [], audits := [], pdcas := []
          engagements := [⟨9, 1⟩, ⟨9, 1⟩, ⟨9, 1⟩]
          engagement_attempts := 0, poster_calls := 0 }
        { id := 1, agent_id := 9, external_id := none, content := "r"
          type := PostType.reply
          target_post_url := some "https://example.com/not-a-status-url"
          thread_parts := none, content_hash := none, content_bucket_date := none
          scheduled_at := some 0, posted_at := none }).2
      = some (.skippedR 1 "rate_limited") ∧
    PostingResult.skippedR 1 "rate_limited"
      ≠ PostingResult.skippedR 1 "invalid_target_url" := by
  refine ⟨by decide, by decide, by decide, by decide⟩

/-- C5 (amended). For every due reply or quote_rt post whose non-empty
target_post_url fails `extract_tweet_id` — provided the post passes the
preceding per-post gates (agent exists and is runnable, the reply/quote
rate limit is not reached, no posted duplicate content, the per-post
x=1.00 reservation succeeds) — the worker returns
`{status: skipped, reason: invalid_target_url}` for it, its posted_at
remains null, no poster method is invoked, and the committed CostLog
rows are unchanged by the post. -/
theorem posting_invalid_url_skip (env : PostingEnv) (st : PostingState)
    (post : Post) (agent : Agent) (u : String)
    (hdue : isDuePost post env.now = true)
    (htype : post.type = PostType.reply ∨ post.type = PostType.quote_rt)
    (hurl : post.target_post_url = some u) (hune : u ≠ "")
    (hbad : extract_tweet_id u = "")
    (hagent : st.agents.find? (fun a => a.id == post.agent_id) = some agent)
    (hrun : is_agent_runnable agent env.now = true)
    (hrate : rate_is_limited st.engagements post.agent_id (dateOf env.now)
        (st.engagement_attempts + 1)
        (agent_toggle_int agent.feature_toggles "reply_quote_daily_max" 3) = false)
    (hdup : st.posts.find? (fun q =>
        q.agent_id == post.agent_id && !(q.id == post.id) &&
        q.content_hash == (backfillPost env post).content_hash &&
        q.content_bucket_date == (backfillPost env post).content_bucket_date &&
        q.posted_at.isSome) = none)
    (hbudget : ((mkBudgetLedger post.agent_id (dateOf env.now) agent.daily_budget
        agent.budget_split_x agent.budget_split_llm).reserve st.cost_logs 1 0).2 = true)
    (hids : ∀ q ∈ st.posts, q.id = post.id → q = post) :
    (processPost env st post).2 = some (.skippedR post.id "invalid_target_url") ∧
    (processPost env st post).1.cost_logs = st.cost_logs ∧
    (processPost env st post).1.poster_calls = st.poster_calls ∧
    ∀ q ∈ (processPost env st post).1.posts, q.id = post.id → q.posted_at = none := by
  have hposted := (isDuePost_fields post env.now hdue).1
  have hEng : (post.type == PostType.reply || post.type == PostType.quote_rt) = true := by
    rcases htype with h | h <;> rw [h] <;> rfl
  have hpw : post_with_type env.posterFn (backfillPost env post)
      = (PostOutcome.invalidUrlOut, false) := by
    have hemp : u.isEmpty = false := by
      rw [Bool.eq_false_iff]
      intro hc
      exact hune ((String.isEmpty_iff u).mp hc)
    have hbadb : (extract_tweet_id u == "") = true := by
      rw [hbad]
      rfl
    unfold post_with_type backfillPost
    rcases htype with h | h <;>
      (rw [show ({ post with
            content_hash := some (optStrOr post.content_hash
              (env.hashFn post.content post.thread_parts))
            content_bucket_date := some (post.content_bucket_date.getD (dateOf env.now))
            : Post }).type = post.type from rfl, h]
       dsimp only
       rw [hurl]
       dsimp only
       rw [hemp]
       simp only [Bool.false_eq_true, if_false, ite_false]
       rw [hbadb]
       rfl)
  rw [processPost_after_gates env st post agent hposted hagent hrun (fun _ => hrate)
    hdup hbudget]
  simp only [hEng, if_true, hpw]
  refine ⟨by trivial, by trivial, by simp, ?_⟩
  intro q hq hqid
  rcases updateFirstBy_mem _ _ _ q hq with hmem | ⟨y, hy, hqy, rfl⟩
  · rw [hids q hmem hqid]
    exact hposted
  · exact hposted

/-- Witness for C5 at a concrete clean state: one due reply post with a
non-status URL, no prior engagement, ample budget. -/
theorem posting_invalid_url_skip_witness :
    (processPost
        { hashFn := fun _ _ => "h", posterFn := fun _ => Except.ok "ext-1", now := 86400 }
        { agents := [{ id := 9, account_id := 1, status := AgentStatus.active
                       feature_toggles := [], daily_budget := 300, budget_split_x := 100
                       budget_split_llm := 200, stop_reason := none, stopped_at := none
                       stop_until := none }]
          posts := [{ id := 1, agent_id := 9, external_id := none, content := "r"
                      type := PostType.reply
                      target_post_url := some "https://example.com/not-a-status-url"
                      thread_parts := none, content_hash := none
                      content_bucket_date := none
                      scheduled_at := some 0, posted_at := none }]
          cost_logs := [], audits := [], pdcas := [], engagements := []
          engagement_attempts := 0, poster_calls := 0 }
        { id := 1, agent_id := 9, external_id := none, content := "r"
          type := PostType.reply
          target_post_url := some "https://example.com/not-a-status-url"
          thread_parts := none, content_hash := none, content_bucket_date := none
          scheduled_at := some 0, posted_at := none }).2
      = some (.skippedR 1 "invalid_target_url") := by
  exact (posting_invalid_url_skip
    { hashFn := fun _ _ => "h", posterFn := fun _ => Except.ok "ext-1", now := 86400 }
    { agents := [{ id := 9, account_id := 1, status := AgentStatus.active
                   feature_toggles := [], daily_budget := 300, budget_split_x := 100
                   budget_split_llm := 200, stop_reason := none, stopped_at := none
                   stop_until := none }]
      posts := [{ id := 1, agent_id := 9, external_id := none, content := "r"
                  type := PostType.reply
                  target_post_url := some "https://example.com/not-a-status-url"
                  thread_parts := none, content_hash := none, content_bucket_date := none
                  scheduled_at := some 0, posted_at := none }]
      cost_logs := [], audits := [], pdcas := [], engagements := []
      engagement_attempts := 0, poster_calls := 0 }
    { id := 1, agent_id := 9, external_id := none, content := "r"
      type := PostType.reply
      target_post_url := some "https://example.com/not-a-status-url"
      thread_parts := none, content_hash := none, content_bucket_date := none
      scheduled_at := some 0, posted_at := none }
    { id := 9, account_id := 1, status := AgentStatus.active
      feature_toggles := [], daily_budget := 300, budget_split_x := 100
      budget_split_llm := 200, stop_reason := none, stopped_at := none
      stop_until := none }
    "https://example.com/not-a-status-url"
    (by decide) (Or.inl rfl) rfl (by decide) (by decide) rfl rfl (by decide) rfl
    (by norm_num [BudgetLedger.reserve, spentX, spentLlm, spentTotal, sumCost,
      mkBudgetLedger])
    (by intro q hq h2; exact List.mem_singleton.mp hq)).1

/-- C10. Failed publication is atomic on the post and the ledger: for
every claimed post that reaches `_post_with_type` (all gates passed) and
whose call raises an ordinary exception, posted_at and external_id remain
unset, the per-post reservation is never committed (CostLog rows are
unchanged), exactly one audit row with status `failed` is appended (an
auto-stop audit, if armed, has status `triggered`), the returned entry
has status failed, and the post remains claimable by a later run. -/
theorem posting_failure_atomic (env : PostingEnv) (st : PostingState)
    (post : Post) (agent : Agent) (etype : String)
    (hdue : isDuePost post env.now = true)
    (hext : post.external_id = none)
    (hagent : st.agents.find? (fun a => a.id == post.agent_id) = some agent)
    (hrun : is_agent_runnable agent env.now = true)
    (hrate : (post.type == PostType.reply || post.type == PostType.quote_rt) = true →
      rate_is_limited st.engagements post.agent_id (dateOf env.now)
        (st.engagement_attempts + 1)
        (agent_toggle_int agent.feature_toggles "reply_quote_daily_max" 3) = false)
    (hdup : st.posts.find? (fun q =>
        q.agent_id == post.agent_id && !(q.id == post.id) &&
        q.content_hash == (backfillPost env post).content_hash &&
        q.content_bucket_date == (backfillPost env post).content_bucket_date &&
        q.posted_at.isSome) = none)
    (hbudget : ((mkBudgetLedger post.agent_id (dateOf env.now) agent.daily_budget
        agent.budget_split_x agent.budget_split_llm).reserve st.cost_logs 1 0).2 = true)
    (hpw : (post_with_type env.posterFn (backfillPost env post)).1
        = PostOutcome.errorOut etype)
    (hids : ∀ q ∈ st.posts, q.id = post.id → q = post) :
    (processPost env st post).2 = some (.failedR post.id etype) ∧
    (processPost env st post).1.cost_logs = st.cost_logs ∧
    countFailedAudits (processPost env st post).1.audits
      = countFailedAudits st.audits + 1 ∧
    ∀ q ∈ (processPost env st post).1.posts, q.id = post.id →
      q.posted_at = none ∧ q.external_id = none ∧ isDuePost q env.now = true := by
  have hposted := (isDuePost_fields post env.now hdue).1
  have hbackdue : isDuePost (backfillPost env post) env.now = isDuePost post env.now := rfl
  rw [processPost_after_gates env st post agent hposted hagent hrun hrate hdup hbudget]
  rcases hpw2 : post_with_type env.posterFn (backfillPost env post) with ⟨o, b⟩
  rw [hpw2] at hpw
  simp only at hpw
  subst hpw
  simp only [hpw2]
  by_cases hEng : (post.type == PostType.reply || post.type == PostType.quote_rt) = true
  · simp only [hEng, if_true]
    have hspec := postingGenericFailure_spec env
      { agents := st.agents
        posts := updateFirstBy st.posts (fun q => q.id == post.id)
          (fun _ => backfillPost env post)
        cost_logs := st.cost_logs, audits := st.audits, pdcas := st.pdcas
        engagements := st.engagements
        engagement_attempts := st.engagement_attempts + 1
        poster_calls := st.poster_calls + (if b then 1 else 0) }
      post etype
    refine ⟨hspec.1, ?_, ?_, ?_⟩
    · rw [hspec.2.2.1]
    · rw [hspec.2.2.2.2]
    · rw [hspec.2.1]
      intro q hq hqid
      rcases updateFirstBy_mem _ _ _ q hq with hmem | ⟨y, hy, hqy, rfl⟩
      · rw [hids q hmem hqid]
        exact ⟨hposted, hext, hdue⟩
      · exact ⟨hposted, hext, by rw [hbackdue]; exact hdue⟩
  · have hEng' : (post.type == PostType.reply || post.type == PostType.quote_rt) = false :=
      Bool.eq_false_iff.mpr hEng
    simp only [hEng', Bool.false_eq_true, if_false]
    have hspec := postingGenericFailure_spec env
      { agents := st.agents
        posts := updateFirstBy st.posts (fun q => q.id == post.id)
          (fun _ => backfillPost env post)
        cost_logs := st.cost_logs, audits := st.audits, pdcas := st.pdcas
        engagements := st.engagements
        engagement_attempts := st.engagement_attempts
        poster_calls := st.poster_calls + (if b then 1 else 0) }
      post etype
    refine ⟨hspec.1, ?_, ?_, ?_⟩
    · rw [hspec.2.2.1]
    · rw [hspec.2.2.2.2]
    · rw [hspec.2.1]
      intro q hq hqid
      rcases updateFirstBy_mem _ _ _ q hq with hmem | ⟨y, hy, hqy, rfl⟩
      · rw [hids q hmem hqid]
        exact ⟨hposted, hext, hdue⟩
      · exact ⟨hposted, hext, by rw [hbackdue]; exact hdue⟩

/-- Witness for C10 at a concrete due tweet whose poster raises. -/
theorem posting_failure_atomic_witness :
    (processPost
        { hashFn := fun _ _ => "h", posterFn := fun _ => Except.error "RuntimeError"
          now := 86400 }
        { agents := [{ id := 9, account_id := 1, status := AgentStatus.active
                       feature_toggles := [], daily_budget := 300, budget_split_x := 100
                       budget_split_llm := 200, stop_reason := none, stopped_at := none
                       stop_until := none }]
          posts := [{ id := 1, agent_id := 9, external_id := none, content := "t"
                      type := PostType.tweet, target_post_url := none
                      thread_parts := none, content_hash := some "h"
                      content_bucket_date := some 1
                      scheduled_at := some 0, posted_at := none }]
          cost_logs := [], audits := [], pdcas := [], engagements := []
          engagement_attempts := 0, poster_calls := 0 }
        { id := 1, agent_id := 9, external_id := none, content := "t"
          type := PostType.tweet, target_post_url := none
          thread_parts := none, content_hash := some "h", content_bucket_date := some 1
          scheduled_at := some 0, posted_at := none }).2
      = some (.failedR 1 "RuntimeError") := by
  exact (posting_failure_atomic
    { hashFn := fun _ _ => "h", posterFn := fun _ => Except.error "RuntimeError"
      now := 86400 }
    { agents := [{ id := 9, account_id := 1, status := AgentStatus.active
                   feature_toggles := [], daily_budget := 300, budget_split_x := 100
                   budget_split_llm := 200, stop_reason := none, stopped_at := none
                   stop_until := none }]
      posts := [{ id := 1, agent_id := 9, external_id := none, content := "t"
                  type := PostType.tweet, target_post_url := none
                  thread_parts := none, content_hash := some "h"
                  content_bucket_date := some 1
                  scheduled_at := some 0, posted_at := none }]
      cost_logs := [], audits := [], pdcas := [], engagements := []
      engagement_attempts := 0, poster_calls := 0 }
    { id := 1, agent_id := 9, external_id := none, content := "t"
      type := PostType.tweet, target_post_url := none
      thread_parts := none, content_hash := some "h", content_bucket_date := some 1
      scheduled_at := some 0, posted_at := none }
    { id := 9, account_id := 1, status := AgentStatus.active
      feature_toggles := [], daily_budget := 300, budget_split_x := 100
      budget_split_llm := 200, stop_reason := none, stopped_at := none
      stop_until := none }
    "RuntimeError"
    (by decide) rfl rfl (by decide) (fun h => absurd h (by decide)) rfl
    (by norm_num [BudgetLedger.reserve, spentX, spentLlm, spentTotal, sumCost,
      mkBudgetLedger])
    rfl
    (by intro q hq h2; exact List.mem_singleton.mp hq)).1

end XAout
